import Mathlib

/-!
AVR stopwatch with a multiplexed 7-segment display.

A shallow embedding of `src/main.c`.  The program's global variables and the
three output ports it writes become the fields of `State`; every interrupt
handler and every block of the body of `while(1)` becomes a function on
`State`.  All variables are `unsigned char`, so they are natural numbers below
256 and every arithmetic write is reduced modulo 256.

The program is described at two levels.  The blocks of the loop body as
functions (`ledIndicator`, `handleTick`, `pollButton`, `mainLoop`) say what the
code does when nothing interrupts it.  The same code as a tree of single reads
and writes (`Prog`, `mainProg`) says what it does with interrupts enabled, as
`main` runs it: a handler, itself uninterrupted, can run before any access.
The two agree when no interrupt arrives (`exec_mainProg`).
-/

namespace Stopwatch

/-! ## Constants -/

def MAX_SECONDS : Nat := 60
def MAX_MINUTES : Nat := 60
def MAX_HOURS : Nat := 24

def COUNT_UP : Nat := 1
def COUNT_DOWN : Nat := 0
def MULTI_SEG_COUNT : Nat := 6

/-- Bit numbers of the port D pins used by the program (buzzer and the two
mode LEDs), as `avr/io.h` names them. -/
def PD0 : Nat := 0
def PD4 : Nat := 4
def PD5 : Nat := 5

/-- Bit numbers of the port B pins the buttons are wired to. -/
def PB0 : Nat := 0
def PB1 : Nat := 1
def PB3 : Nat := 3
def PB4 : Nat := 4
def PB5 : Nat := 5
def PB6 : Nat := 6
def PB7 : Nat := 7

/-- The lookup table `digit_to_bcd[10]`. -/
def digit_to_bcd : List Nat := [0, 1, 2, 3, 4, 5, 6, 7, 8, 9]

/-! ## Machine arithmetic on `unsigned char` -/

/-- The statement `x++` on an `unsigned char`. -/
def inc8 (x : Nat) : Nat := (x + 1) % 256

/-- The statement `x--` on an `unsigned char`. -/
def dec8 (x : Nat) : Nat := (x + 255) % 256

/-- The statement `P |= (1<<n)` on an 8-bit register. -/
def setBit8 (p n : Nat) : Nat := (p ||| (1 <<< n)) % 256

/-- The statement `P &= ~(1<<n)` on an 8-bit register: the complement is taken
in `int` and the result is truncated to the low byte. -/
def clearBit8 (p n : Nat) : Nat := p &&& (255 ^^^ ((1 <<< n) % 256))

/-! ## Buttons -/

/-- The seven buttons polled by the main loop. -/
inductive Button where
  | mode
  | hourInc
  | hourDec
  | minInc
  | minDec
  | secInc
  | secDec
  deriving DecidableEq, Repr

/-- The port B pin each polled button is read from. -/
def Button.pin : Button → Nat
  | .mode => PB7
  | .hourInc => PB1
  | .hourDec => PB0
  | .minInc => PB4
  | .minDec => PB3
  | .secInc => PB6
  | .secDec => PB5

/-- The test `!(PINB & (1<<PBn))`: the line is pulled up, so the button is
active when its bit reads 0. -/
def pressed (pinb n : Nat) : Bool := (pinb &&& (1 <<< n)) == 0

/-! ## Program state -/

/-- The global variables of the program, the three output ports, and one ghost
field.  `fired` is not a program variable and nothing reads it: it records, in
order (most recent first), each button action whose body was executed. -/
structure State where
  hours : Nat
  minutes : Nat
  seconds : Nat
  running : Nat
  countMode : Nat
  tick : Nat
  modeBtnFlag : Nat
  currentDigit : Nat
  hour_inc_flag : Nat
  hour_dec_flag : Nat
  min_inc_flag : Nat
  min_dec_flag : Nat
  sec_inc_flag : Nat
  sec_dec_flag : Nat
  PORTA : Nat
  PORTC : Nat
  PORTD : Nat
  fired : List Button
  deriving DecidableEq, Repr

/-- The initial values of the globals (lines 15-29); the output ports are 0
after reset of the microcontroller. -/
def State.init : State where
  hours := 0
  minutes := 0
  seconds := 0
  running := 1
  countMode := COUNT_UP
  tick := 0
  modeBtnFlag := 0
  currentDigit := 0
  hour_inc_flag := 0
  hour_dec_flag := 0
  min_inc_flag := 0
  min_dec_flag := 0
  sec_inc_flag := 0
  sec_dec_flag := 0
  PORTA := 0
  PORTC := 0
  PORTD := 0
  fired := []

/-! ## Interrupt handlers -/

/-- The handler `ISR(TIMER1_COMPA_vect)`: one second has elapsed. -/
def TIMER1_COMPA_vect (s : State) : State :=
  { s with tick := 1 }

/-- The handler `ISR(TIMER0_COMP_vect)`: display refresh.  The two array reads
are partial: an index outside the array gives `none`. -/
def TIMER0_COMP_vect (s : State) : Option State :=
  let digits : List Nat :=
    [s.hours / 10, s.hours % 10, s.minutes / 10, s.minutes % 10,
     s.seconds / 10, s.seconds % 10]
  match digits[s.currentDigit]? with
  | none => none
  | some d =>
    match digit_to_bcd[d]? with
    | none => none
    | some v =>
      let c := inc8 s.currentDigit
      some { s with
        PORTA := (1 <<< s.currentDigit) % 256
        PORTC := v
        currentDigit := if c ≥ MULTI_SEG_COUNT then 0 else c }

/-- The handler `ISR(INT0_vect)`: reset. -/
def INT0_vect (s : State) : State :=
  { s with hours := 0, minutes := 0, seconds := 0 }

/-- The handler `ISR(INT1_vect)`: pause. -/
def INT1_vect (s : State) : State :=
  { s with running := 0 }

/-- The handler `ISR(INT2_vect)`: resume. -/
def INT2_vect (s : State) : State :=
  { s with running := 1 }

/-! ## Helper functions -/

/-- The function `stopwatch_toggle_mode`. -/
def stopwatch_toggle_mode (s : State) : State :=
  { s with countMode := s.countMode ^^^ 1, fired := Button.mode :: s.fired }

/-- The function `Hour_Inc`. -/
def Hour_Inc (s : State) : State :=
  if s.hour_inc_flag = 0 then
    let h := inc8 s.hours
    { s with
      hours := if h ≥ MAX_HOURS then 0 else h
      hour_inc_flag := 1
      fired := Button.hourInc :: s.fired }
  else s

/-- The function `Hour_Dec`. -/
def Hour_Dec (s : State) : State :=
  if s.hour_dec_flag = 0 then
    { s with
      hours := if s.hours > 0 then dec8 s.hours else MAX_HOURS - 1
      hour_dec_flag := 1
      fired := Button.hourDec :: s.fired }
  else s

/-- The function `Min_Inc`. -/
def Min_Inc (s : State) : State :=
  if s.min_inc_flag = 0 then
    let m := inc8 s.minutes
    { s with
      minutes := if m ≥ MAX_MINUTES then 0 else m
      min_inc_flag := 1
      fired := Button.minInc :: s.fired }
  else s

/-- The function `Min_Dec`. -/
def Min_Dec (s : State) : State :=
  if s.min_dec_flag = 0 then
    { s with
      minutes := if s.minutes > 0 then dec8 s.minutes else MAX_MINUTES - 1
      min_dec_flag := 1
      fired := Button.minDec :: s.fired }
  else s

/-- The function `Sec_Inc`. -/
def Sec_Inc (s : State) : State :=
  if s.sec_inc_flag = 0 then
    let x := inc8 s.seconds
    { s with
      seconds := if x ≥ MAX_SECONDS then 0 else x
      sec_inc_flag := 1
      fired := Button.secInc :: s.fired }
  else s

/-- The function `Sec_Dec`. -/
def Sec_Dec (s : State) : State :=
  if s.sec_dec_flag = 0 then
    { s with
      seconds := if s.seconds > 0 then dec8 s.seconds else MAX_SECONDS - 1
      sec_dec_flag := 1
      fired := Button.secDec :: s.fired }
  else s

/-! ## The body of `while(1)` -/

/-- Lines 158-164: reflect the mode on the two LEDs. -/
def ledIndicator (s : State) : State :=
  if s.countMode = COUNT_UP then
    { s with PORTD := clearBit8 (setBit8 s.PORTD PD4) PD5 }
  else
    { s with PORTD := clearBit8 (setBit8 s.PORTD PD5) PD4 }

/-- Lines 170-181: the count-up branch of the tick. -/
def countUp (s : State) : State :=
  let s1 := { s with seconds := inc8 s.seconds }
  let s2 :=
    if s1.seconds ≥ MAX_SECONDS then
      { s1 with seconds := 0, minutes := inc8 s1.minutes }
    else s1
  let s3 :=
    if s2.minutes ≥ MAX_MINUTES then
      { s2 with minutes := 0, hours := inc8 s2.hours }
    else s2
  if s3.hours ≥ MAX_HOURS then { s3 with hours := 0 } else s3

/-- Lines 183-201: the countdown branch of the tick. -/
def countDown (s : State) : State :=
  if s.hours = 0 ∧ s.minutes = 0 ∧ s.seconds = 0 then
    { s with PORTD := setBit8 s.PORTD PD0, running := 0 }
  else if s.seconds = 0 then
    if s.minutes = 0 then
      if s.hours > 0 then
        { s with hours := dec8 s.hours, minutes := 59, seconds := 59 }
      else s
    else
      { s with minutes := dec8 s.minutes, seconds := 59 }
  else
    { s with seconds := dec8 s.seconds }

/-- Lines 168-203: the tick transition, the block guarded by `if (running)`. -/
def tickBody (s : State) : State :=
  if s.running ≠ 0 then
    if s.countMode = COUNT_UP then countUp s else countDown s
  else s

/-- Lines 167-205: process a pending tick, if there is one. -/
def handleTick (s : State) : State :=
  if s.tick ≠ 0 then { tickBody s with tick := 0 } else s

/-- The latch guarding a polled button. -/
def Button.flag : Button → State → Nat
  | .mode, s => s.modeBtnFlag
  | .hourInc, s => s.hour_inc_flag
  | .hourDec, s => s.hour_dec_flag
  | .minInc, s => s.min_inc_flag
  | .minDec, s => s.min_dec_flag
  | .secInc, s => s.sec_inc_flag
  | .secDec, s => s.sec_dec_flag

/-- Lines 208-225: the statement polling button `b`, where `pinb` is the value
read from `PINB` by that statement. -/
def pollButton (b : Button) (pinb : Nat) (s : State) : State :=
  match b with
  | .mode =>
    if pressed pinb PB7 then
      if s.modeBtnFlag = 0 then
        { stopwatch_toggle_mode s with modeBtnFlag := 1 }
      else s
    else { s with modeBtnFlag := 0 }
  | .hourInc =>
    if pressed pinb PB1 then Hour_Inc s else { s with hour_inc_flag := 0 }
  | .hourDec =>
    if pressed pinb PB0 then Hour_Dec s else { s with hour_dec_flag := 0 }
  | .minInc =>
    if pressed pinb PB4 then Min_Inc s else { s with min_inc_flag := 0 }
  | .minDec =>
    if pressed pinb PB3 then Min_Dec s else { s with min_dec_flag := 0 }
  | .secInc =>
    if pressed pinb PB6 then Sec_Inc s else { s with sec_inc_flag := 0 }
  | .secDec =>
    if pressed pinb PB5 then Sec_Dec s else { s with sec_dec_flag := 0 }

/-- One iteration of `while(1)`.  `PINB` is volatile and is read once by each
of the seven polling statements; `pins b` is the value read by the statement
that polls button `b`. -/
def mainLoop (pins : Button → Nat) (s : State) : State :=
  let s := ledIndicator s
  let s := handleTick s
  let s := pollButton .mode (pins .mode) s
  let s := pollButton .hourInc (pins .hourInc) s
  let s := pollButton .hourDec (pins .hourDec) s
  let s := pollButton .minInc (pins .minInc) s
  let s := pollButton .minDec (pins .minDec) s
  let s := pollButton .secInc (pins .secInc) s
  pollButton .secDec (pins .secDec) s

/-! ## The interrupt-driven system as a transition system -/

/-- The events of the system: the five interrupts and one iteration of the
main loop (with the values it reads from `PINB`). -/
inductive Event where
  | second
  | refresh
  | reset
  | pause
  | resume
  | loop (pins : Button → Nat)

/-- One transition of the system seen at the boundaries of loop iterations: an
interrupt handler, or a whole iteration of the main loop that no interrupt
enters.  Interrupts inside an iteration are the subject of `MStep`. -/
def step : Event → State → Option State
  | .second, s => some (TIMER1_COMPA_vect s)
  | .refresh, s => TIMER0_COMP_vect s
  | .reset, s => some (INT0_vect s)
  | .pause, s => some (INT1_vect s)
  | .resume, s => some (INT2_vect s)
  | .loop pins, s => some (mainLoop pins s)

/-- The states the system reaches when interrupts arrive only between
iterations of the main loop: the initial state and every state a transition of
`step` produces from such a state.  These are some of the states of the running
program, not all of them (`reachable_micro`); the states reached with
interrupts arriving anywhere are those of `MReachable`. -/
inductive Reachable : State → Prop where
  | init : Reachable State.init
  | next (e : Event) (s t : State) : Reachable s → step e s = some t → Reachable t

/-- Run the main loop for a list of iterations, one `PINB` valuation each. -/
def runLoop (ps : List (Button → Nat)) (s : State) : State :=
  ps.foldl (fun t p => mainLoop p t) s

/-- After `k` one-second interrupts, iterate the main loop until no tick is
pending; `fuel` bounds the number of iterations. -/
def drainTick (pins : Button → Nat) : Nat → State → Option State
  | 0, s => if s.tick = 0 then some s else none
  | fuel + 1, s => if s.tick = 0 then some s else drainTick pins fuel (mainLoop pins s)

/-! ## Observations used by the properties -/

/-- The time fields are within range. -/
def InBounds (s : State) : Prop :=
  s.hours < MAX_HOURS ∧ s.minutes < MAX_MINUTES ∧ s.seconds < MAX_SECONDS

instance (s : State) : Decidable (InBounds s) := by
  unfold InBounds
  exact inferInstance

/-- The time of day in seconds. -/
def totalSeconds (s : State) : Nat :=
  3600 * s.hours + 60 * s.minutes + s.seconds

/-- The alarm output: bit `PD0` of `PORTD` (the buzzer). -/
def alarm (s : State) : Bool := s.PORTD.testBit PD0

/-- The counting direction, as the main loop tests it. -/
inductive Mode where
  | CountUp
  | CountDown
  deriving DecidableEq, Repr

/-- The time-keeping part of the state: the time, the direction (`countMode`
compared with `COUNT_UP`) and whether the clock runs (`running` tested as a
C condition). -/
structure TimeState where
  hours : Nat
  minutes : Nat
  seconds : Nat
  mode : Mode
  running : Bool
  deriving DecidableEq, Repr

/-- The time-keeping view of a program state. -/
def timeState (s : State) : TimeState where
  hours := s.hours
  minutes := s.minutes
  seconds := s.seconds
  mode := if s.countMode = COUNT_UP then Mode.CountUp else Mode.CountDown
  running := s.running != 0

/-- No polled button is active in the values read from `PINB`. -/
def Idle (pins : Button → Nat) : Prop :=
  ∀ b : Button, pressed (pins b) b.pin = false

/-- The number of times the action of button `b` has been performed. -/
def actionCount (b : Button) (s : State) : Nat := s.fired.count b

/-- The level of button `b` sampled in each iteration of a run of the loop. -/
def samples (b : Button) (ps : List (Button → Nat)) : List Bool :=
  ps.map (fun p => pressed (p b) b.pin)

/-- Count the samples that begin a run of active samples: an active sample
whose predecessor (`prev`) is inactive. -/
def risingEdges (prev : Bool) : List Bool → Nat
  | [] => 0
  | x :: xs => (if x && !prev then 1 else 0) + risingEdges x xs

/-- The number of maximal runs of consecutive active samples. -/
def activeRuns (l : List Bool) : Nat := risingEdges false l

/-- A state in which the countdown has halted with the alarm on: from the
initial state the mode button is pressed (bit 7 of `PINB` reads 0), then one
second elapses and an iteration of the main loop processes it. -/
def haltedState : State :=
  mainLoop (fun _ => 255) (TIMER1_COMPA_vect (mainLoop (fun _ => 127) State.init))

/-- A paused state: the pause interrupt arrives in the initial state. -/
def pausedState : State := INT1_vect State.init

/-- The five variables the tick transition reads and writes: the time, the
running flag and the counting mode, as stored. -/
def clock (s : State) : Nat × Nat × Nat × Nat × Nat :=
  (s.hours, s.minutes, s.seconds, s.running, s.countMode)

/-- Lines 77-83: the local array `digits` filled by the refresh handler. -/
def digits (s : State) : List Nat :=
  [s.hours / 10, s.hours % 10, s.minutes / 10, s.minutes % 10,
   s.seconds / 10, s.seconds % 10]

/-- Run the refresh handler `n` times in a row and collect what each invocation
leaves on the digit-enable port and on the value port, in order. -/
def refreshRun : Nat → State → Option (List (Nat × Nat) × State)
  | 0, s => some ([], s)
  | n + 1, s =>
    match TIMER0_COMP_vect s with
    | none => none
    | some t =>
      match refreshRun n t with
      | none => none
      | some (outs, u) => some ((t.PORTA, t.PORTC) :: outs, u)

/-- One press of button `b`: an iteration in which its line reads inactive
(value `up` of `PINB`) followed by one in which it reads active (value
`down`), as seen by the statement polling `b`. -/
def pressOnce (b : Button) (up down : Nat) (s : State) : State :=
  pollButton b down (pollButton b up s)

/-! ## The main loop with interrupts enabled

`main` runs with interrupts enabled from `sei()` on, so a handler can run
between any two accesses the loop body makes to a variable or a port.  The loop
body is written here as the sequence of its reads and writes; an interrupt
handler, which is not itself interrupted, can run before each of them. -/

/-- The interrupt sources. -/
inductive Irq where
  | second
  | refresh
  | reset
  | pause
  | resume
  deriving DecidableEq, Repr

/-- The handler each interrupt runs. -/
def Irq.handler : Irq → State → Option State
  | .second, s => some (TIMER1_COMPA_vect s)
  | .refresh, s => TIMER0_COMP_vect s
  | .reset, s => some (INT0_vect s)
  | .pause, s => some (INT1_vect s)
  | .resume, s => some (INT2_vect s)

/-- Service a list of interrupts, one handler after the other. -/
def serve : List Irq → State → Option State
  | [], s => some s
  | i :: is, s =>
    match i.handler s with
    | none => none
    | some t => serve is t

/-- Code as a tree of accesses: `rd f k` reads the value `f s` and continues
with `k` of it, `wr u k` performs the write `u` and continues with `k`. -/
inductive Prog where
  | done : Prog
  | rd (f : State → Nat) (k : Nat → Prog) : Prog
  | wr (u : State → State) (k : Prog) : Prog

/-- Lines 158-164 as accesses: `PORTD |= ..` and `PORTD &= ..` each read the
port and write it back. -/
def ledIndicatorP (k : Prog) : Prog :=
  .rd (fun s => s.countMode) fun m =>
    if m = COUNT_UP then
      .rd (fun s => s.PORTD) fun p =>
      .wr (fun s => { s with PORTD := setBit8 p PD4 }) <|
      .rd (fun s => s.PORTD) fun q =>
      .wr (fun s => { s with PORTD := clearBit8 q PD5 }) k
    else
      .rd (fun s => s.PORTD) fun p =>
      .wr (fun s => { s with PORTD := setBit8 p PD5 }) <|
      .rd (fun s => s.PORTD) fun q =>
      .wr (fun s => { s with PORTD := clearBit8 q PD4 }) k

/-- Lines 170-181 as accesses: every `x++` reads `x` and writes it, every test
reads its variable again. -/
def countUpP (k : Prog) : Prog :=
  let hoursTest : Prog :=
    .rd (fun s => s.hours) fun h1 =>
      if h1 ≥ MAX_HOURS then .wr (fun s => { s with hours := 0 }) k else k
  let minutesTest : Prog :=
    .rd (fun s => s.minutes) fun m1 =>
      if m1 ≥ MAX_MINUTES then
        .wr (fun s => { s with minutes := 0 }) <|
        .rd (fun s => s.hours) fun h =>
        .wr (fun s => { s with hours := inc8 h }) hoursTest
      else hoursTest
  .rd (fun s => s.seconds) fun x =>
  .wr (fun s => { s with seconds := inc8 x }) <|
  .rd (fun s => s.seconds) fun x1 =>
    if x1 ≥ MAX_SECONDS then
      .wr (fun s => { s with seconds := 0 }) <|
      .rd (fun s => s.minutes) fun m =>
      .wr (fun s => { s with minutes := inc8 m }) minutesTest
    else minutesTest

/-- Lines 183-201 as accesses: the `&&` reads hours, minutes, seconds in turn
and stops at the first that is not 0; each later test and each `x--` reads its
variable again. -/
def countDownP (k : Prog) : Prog :=
  let borrow : Prog :=
    .rd (fun s => s.seconds) fun x =>
      if x = 0 then
        .rd (fun s => s.minutes) fun m =>
          if m = 0 then
            .rd (fun s => s.hours) fun h =>
              if h > 0 then
                .rd (fun s => s.hours) fun h1 =>
                .wr (fun s => { s with hours := dec8 h1 }) <|
                .wr (fun s => { s with minutes := 59 }) <|
                .wr (fun s => { s with seconds := 59 }) k
              else k
          else
            .rd (fun s => s.minutes) fun m1 =>
            .wr (fun s => { s with minutes := dec8 m1 }) <|
            .wr (fun s => { s with seconds := 59 }) k
      else
        .rd (fun s => s.seconds) fun x1 =>
        .wr (fun s => { s with seconds := dec8 x1 }) k
  .rd (fun s => s.hours) fun h =>
    if h = 0 then
      .rd (fun s => s.minutes) fun m =>
        if m = 0 then
          .rd (fun s => s.seconds) fun x =>
            if x = 0 then
              .rd (fun s => s.PORTD) fun p =>
              .wr (fun s => { s with PORTD := setBit8 p PD0 }) <|
              .wr (fun s => { s with running := 0 }) k
            else borrow
        else borrow
    else borrow

/-- Lines 167-205 as accesses. -/
def handleTickP (k : Prog) : Prog :=
  .rd (fun s => s.tick) fun t =>
    if t ≠ 0 then
      .rd (fun s => s.running) fun r =>
        if r ≠ 0 then
          .rd (fun s => s.countMode) fun m =>
            if m = COUNT_UP then countUpP (.wr (fun s => { s with tick := 0 }) k)
            else countDownP (.wr (fun s => { s with tick := 0 }) k)
        else .wr (fun s => { s with tick := 0 }) k
    else k

/-- The function `stopwatch_toggle_mode` as accesses; the ghost record rides on
the write. -/
def stopwatch_toggle_modeP (k : Prog) : Prog :=
  .rd (fun s => s.countMode) fun m =>
  .wr (fun s => { s with countMode := m ^^^ 1, fired := Button.mode :: s.fired }) k

/-- The function `Hour_Inc` as accesses; the ghost record rides on the write of
the latch. -/
def Hour_IncP (k : Prog) : Prog :=
  .rd (fun s => s.hour_inc_flag) fun f =>
    if f = 0 then
      .rd (fun s => s.hours) fun h =>
      .wr (fun s => { s with hours := inc8 h }) <|
      .rd (fun s => s.hours) fun h1 =>
        if h1 ≥ MAX_HOURS then
          .wr (fun s => { s with hours := 0 }) <|
          .wr (fun s => { s with hour_inc_flag := 1, fired := Button.hourInc :: s.fired }) k
        else
          .wr (fun s => { s with hour_inc_flag := 1, fired := Button.hourInc :: s.fired }) k
    else k

/-- The function `Hour_Dec` as accesses. -/
def Hour_DecP (k : Prog) : Prog :=
  .rd (fun s => s.hour_dec_flag) fun f =>
    if f = 0 then
      .rd (fun s => s.hours) fun h =>
        if h > 0 then
          .rd (fun s => s.hours) fun h1 =>
          .wr (fun s => { s with hours := dec8 h1 }) <|
          .wr (fun s => { s with hour_dec_flag := 1, fired := Button.hourDec :: s.fired }) k
        else
          .wr (fun s => { s with hours := MAX_HOURS - 1 }) <|
          .wr (fun s => { s with hour_dec_flag := 1, fired := Button.hourDec :: s.fired }) k
    else k

/-- The function `Min_Inc` as accesses. -/
def Min_IncP (k : Prog) : Prog :=
  .rd (fun s => s.min_inc_flag) fun f =>
    if f = 0 then
      .rd (fun s => s.minutes) fun m =>
      .wr (fun s => { s with minutes := inc8 m }) <|
      .rd (fun s => s.minutes) fun m1 =>
        if m1 ≥ MAX_MINUTES then
          .wr (fun s => { s with minutes := 0 }) <|
          .wr (fun s => { s with min_inc_flag := 1, fired := Button.minInc :: s.fired }) k
        else
          .wr (fun s => { s with min_inc_flag := 1, fired := Button.minInc :: s.fired }) k
    else k

/-- The function `Min_Dec` as accesses. -/
def Min_DecP (k : Prog) : Prog :=
  .rd (fun s => s.min_dec_flag) fun f =>
    if f = 0 then
      .rd (fun s => s.minutes) fun m =>
        if m > 0 then
          .rd (fun s => s.minutes) fun m1 =>
          .wr (fun s => { s with minutes := dec8 m1 }) <|
          .wr (fun s => { s with min_dec_flag := 1, fired := Button.minDec :: s.fired }) k
        else
          .wr (fun s => { s with minutes := MAX_MINUTES - 1 }) <|
          .wr (fun s => { s with min_dec_flag := 1, fired := Button.minDec :: s.fired }) k
    else k

/-- The function `Sec_Inc` as accesses. -/
def Sec_IncP (k : Prog) : Prog :=
  .rd (fun s => s.sec_inc_flag) fun f =>
    if f = 0 then
      .rd (fun s => s.seconds) fun x =>
      .wr (fun s => { s with seconds := inc8 x }) <|
      .rd (fun s => s.seconds) fun x1 =>
        if x1 ≥ MAX_SECONDS then
          .wr (fun s => { s with seconds := 0 }) <|
          .wr (fun s => { s with sec_inc_flag := 1, fired := Button.secInc :: s.fired }) k
        else
          .wr (fun s => { s with sec_inc_flag := 1, fired := Button.secInc :: s.fired }) k
    else k

/-- The function `Sec_Dec` as accesses. -/
def Sec_DecP (k : Prog) : Prog :=
  .rd (fun s => s.sec_dec_flag) fun f =>
    if f = 0 then
      .rd (fun s => s.seconds) fun x =>
        if x > 0 then
          .rd (fun s => s.seconds) fun x1 =>
          .wr (fun s => { s with seconds := dec8 x1 }) <|
          .wr (fun s => { s with sec_dec_flag := 1, fired := Button.secDec :: s.fired }) k
        else
          .wr (fun s => { s with seconds := MAX_SECONDS - 1 }) <|
          .wr (fun s => { s with sec_dec_flag := 1, fired := Button.secDec :: s.fired }) k
    else k

/-- Lines 208-225 as accesses: the statement polling button `b` reads `PINB`
(the value `pinb`) and then calls the action or clears the latch. -/
def pollButtonP (b : Button) (pinb : Nat) (k : Prog) : Prog :=
  match b with
  | .mode =>
    .rd (fun _ => pinb) fun v =>
      if pressed v PB7 then
        .rd (fun s => s.modeBtnFlag) fun f =>
          if f = 0 then
            stopwatch_toggle_modeP (.wr (fun s => { s with modeBtnFlag := 1 }) k)
          else k
      else .wr (fun s => { s with modeBtnFlag := 0 }) k
  | .hourInc =>
    .rd (fun _ => pinb) fun v =>
      if pressed v PB1 then Hour_IncP k
      else .wr (fun s => { s with hour_inc_flag := 0 }) k
  | .hourDec =>
    .rd (fun _ => pinb) fun v =>
      if pressed v PB0 then Hour_DecP k
      else .wr (fun s => { s with hour_dec_flag := 0 }) k
  | .minInc =>
    .rd (fun _ => pinb) fun v =>
      if pressed v PB4 then Min_IncP k
      else .wr (fun s => { s with min_inc_flag := 0 }) k
  | .minDec =>
    .rd (fun _ => pinb) fun v =>
      if pressed v PB3 then Min_DecP k
      else .wr (fun s => { s with min_dec_flag := 0 }) k
  | .secInc =>
    .rd (fun _ => pinb) fun v =>
      if pressed v PB6 then Sec_IncP k
      else .wr (fun s => { s with sec_inc_flag := 0 }) k
  | .secDec =>
    .rd (fun _ => pinb) fun v =>
      if pressed v PB5 then Sec_DecP k
      else .wr (fun s => { s with sec_dec_flag := 0 }) k

/-- One iteration of `while(1)` as accesses, in source order. -/
def mainProg (pins : Button → Nat) : Prog :=
  ledIndicatorP <| handleTickP <|
  pollButtonP .mode (pins .mode) <|
  pollButtonP .hourInc (pins .hourInc) <|
  pollButtonP .hourDec (pins .hourDec) <|
  pollButtonP .minInc (pins .minInc) <|
  pollButtonP .minDec (pins .minDec) <|
  pollButtonP .secInc (pins .secInc) <|
  pollButtonP .secDec (pins .secDec) .done

/-- Run code to its end under a schedule of interrupts: the n-th entry of
`sched` lists the interrupts serviced just before the n-th access, and none
arrive once the schedule is used up. -/
def execProg : Prog → List (List Irq) → State → Option State
  | .done, _, s => some s
  | .rd f k, sched, s =>
    match serve (sched.headD []) s with
    | none => none
    | some t => execProg (k (f t)) sched.tail t
  | .wr u k, sched, s =>
    match serve (sched.headD []) s with
    | none => none
    | some t => execProg k sched.tail (u t)

/-- What a single move of the running system is: an interrupt being serviced,
the next access of the loop body, or the jump back to the top of `while(1)`. -/
inductive Move where
  | irq (i : Irq)
  | access
  | again

/-- One move of the system with interrupts enabled, from the code still to run
in this iteration and the state, to the same after the move. -/
inductive MStep : Prog → State → Move → Prog → State → Prop where
  | irq (i : Irq) (p : Prog) (s t : State) :
      i.handler s = some t → MStep p s (Move.irq i) p t
  | rd (f : State → Nat) (k : Nat → Prog) (s : State) :
      MStep (Prog.rd f k) s Move.access (k (f s)) s
  | wr (u : State → State) (k : Prog) (s : State) :
      MStep (Prog.wr u k) s Move.access k (u s)
  | again (pins : Button → Nat) (s : State) :
      MStep Prog.done s Move.again (mainProg pins) s

/-- The configurations the system with interrupts enabled can be in: entering
the loop from the initial state, and whatever a move produces. -/
inductive MReachable : Prog → State → Prop where
  | init (pins : Button → Nat) : MReachable (mainProg pins) State.init
  | next (p q : Prog) (s t : State) (m : Move) :
      MReachable p s → MStep p s m q t → MReachable q t

/-- All writes of the code leave the observation `g` of the state unchanged. -/
def Prog.Keeps (g : State → Nat) : Prog → Prop
  | .done => True
  | .rd _ k => ∀ v : Nat, (k v).Keeps g
  | .wr u k => (∀ s : State, g (u s) = g s) ∧ k.Keeps g

/-- The schedule of the reset race: nothing before the first twelve accesses of
the iteration, the reset interrupt before the thirteenth, the read of seconds
by `seconds--` on line 199. -/
def raceSchedule : List (List Irq) :=
  List.replicate 12 [] ++ [[Irq.reset]]

/-- The state before the racing iteration: from the initial state one iteration
with the mode and seconds-increment buttons down (bits 7 and 6 of `PINB` read
0), then a one-second interrupt; counting down at 00:00:01 with a tick
pending. -/
def racePre : State :=
  TIMER1_COMPA_vect (mainLoop (fun _ => 63) State.init)

/-- The schedule of the reset race in `Hour_Dec`: the reset interrupt arrives
before the fourteenth access of the iteration, the read of hours by `hours--`
on line 115, after the test `hours>0` has read 1. -/
def raceScheduleHour : List (List Irq) :=
  List.replicate 13 [] ++ [[Irq.reset]]

/-- The state before that iteration: from the initial state one iteration with
the hour-increment button down (bit 1 of `PINB` reads 0); the time is
01:00:00. -/
def racePreHour : State :=
  mainLoop (fun _ => 253) State.init

/-! ## Basic facts about the tick -/

theorem inBounds_countUp (s : State) (h : InBounds s) : InBounds (countUp s) := by
  obtain ⟨h1, h2, h3⟩ := h
  simp only [MAX_HOURS, MAX_MINUTES, MAX_SECONDS] at h1 h2 h3
  simp only [InBounds, countUp, inc8, MAX_HOURS, MAX_MINUTES, MAX_SECONDS]
  split_ifs <;> (try dsimp only at *) <;> omega

theorem inBounds_countDown (s : State) (h : InBounds s) : InBounds (countDown s) := by
  obtain ⟨h1, h2, h3⟩ := h
  simp only [MAX_HOURS, MAX_MINUTES, MAX_SECONDS] at h1 h2 h3
  simp only [InBounds, countDown, dec8, MAX_HOURS, MAX_MINUTES, MAX_SECONDS]
  split_ifs <;> (try dsimp only at *) <;> omega

theorem inBounds_tickBody (s : State) (h : InBounds s) : InBounds (tickBody s) := by
  unfold tickBody
  split_ifs
  · exact inBounds_countUp s h
  · exact inBounds_countDown s h
  · exact h

theorem inBounds_handleTick (s : State) (h : InBounds s) : InBounds (handleTick s) := by
  unfold handleTick
  split_ifs
  · exact inBounds_tickBody s h
  · exact h

/-! ## The bounds are preserved by every operation -/

theorem inBounds_Hour_Inc (s : State) (h : InBounds s) : InBounds (Hour_Inc s) := by
  obtain ⟨h1, h2, h3⟩ := h
  simp only [MAX_HOURS, MAX_MINUTES, MAX_SECONDS] at h1 h2 h3
  simp only [InBounds, Hour_Inc, inc8, MAX_HOURS, MAX_MINUTES, MAX_SECONDS]
  split_ifs <;> (try dsimp only at *) <;> omega

theorem inBounds_Hour_Dec (s : State) (h : InBounds s) : InBounds (Hour_Dec s) := by
  obtain ⟨h1, h2, h3⟩ := h
  simp only [MAX_HOURS, MAX_MINUTES, MAX_SECONDS] at h1 h2 h3
  simp only [InBounds, Hour_Dec, dec8, MAX_HOURS, MAX_MINUTES, MAX_SECONDS]
  split_ifs <;> (try dsimp only at *) <;> omega

theorem inBounds_Min_Inc (s : State) (h : InBounds s) : InBounds (Min_Inc s) := by
  obtain ⟨h1, h2, h3⟩ := h
  simp only [MAX_HOURS, MAX_MINUTES, MAX_SECONDS] at h1 h2 h3
  simp only [InBounds, Min_Inc, inc8, MAX_HOURS, MAX_MINUTES, MAX_SECONDS]
  split_ifs <;> (try dsimp only at *) <;> omega

theorem inBounds_Min_Dec (s : State) (h : InBounds s) : InBounds (Min_Dec s) := by
  obtain ⟨h1, h2, h3⟩ := h
  simp only [MAX_HOURS, MAX_MINUTES, MAX_SECONDS] at h1 h2 h3
  simp only [InBounds, Min_Dec, dec8, MAX_HOURS, MAX_MINUTES, MAX_SECONDS]
  split_ifs <;> (try dsimp only at *) <;> omega

theorem inBounds_Sec_Inc (s : State) (h : InBounds s) : InBounds (Sec_Inc s) := by
  obtain ⟨h1, h2, h3⟩ := h
  simp only [MAX_HOURS, MAX_MINUTES, MAX_SECONDS] at h1 h2 h3
  simp only [InBounds, Sec_Inc, inc8, MAX_HOURS, MAX_MINUTES, MAX_SECONDS]
  split_ifs <;> (try dsimp only at *) <;> omega

theorem inBounds_Sec_Dec (s : State) (h : InBounds s) : InBounds (Sec_Dec s) := by
  obtain ⟨h1, h2, h3⟩ := h
  simp only [MAX_HOURS, MAX_MINUTES, MAX_SECONDS] at h1 h2 h3
  simp only [InBounds, Sec_Dec, dec8, MAX_HOURS, MAX_MINUTES, MAX_SECONDS]
  split_ifs <;> (try dsimp only at *) <;> omega

theorem inBounds_toggle (s : State) (h : InBounds s) :
    InBounds (stopwatch_toggle_mode s) := h

theorem inBounds_INT0 (s : State) : InBounds (INT0_vect s) := by
  simp [InBounds, INT0_vect, MAX_HOURS, MAX_MINUTES, MAX_SECONDS]

theorem inBounds_INT1 (s : State) (h : InBounds s) : InBounds (INT1_vect s) := h

theorem inBounds_INT2 (s : State) (h : InBounds s) : InBounds (INT2_vect s) := h

theorem inBounds_TIMER1 (s : State) (h : InBounds s) : InBounds (TIMER1_COMPA_vect s) := h

theorem inBounds_TIMER0 (s t : State) (h : InBounds s) (e : TIMER0_COMP_vect s = some t) :
    InBounds t := by
  simp only [TIMER0_COMP_vect] at e
  split at e
  · exact absurd e (by simp)
  · split at e
    · exact absurd e (by simp)
    · cases e
      exact h

theorem inBounds_ledIndicator (s : State) (h : InBounds s) : InBounds (ledIndicator s) := by
  unfold ledIndicator
  split_ifs <;> exact h

theorem inBounds_pollButton (b : Button) (pinb : Nat) (s : State) (h : InBounds s) :
    InBounds (pollButton b pinb s) := by
  cases b <;> simp only [pollButton] <;> split_ifs
  · exact inBounds_toggle s h
  · exact h
  · exact h
  · exact inBounds_Hour_Inc s h
  · exact h
  · exact inBounds_Hour_Dec s h
  · exact h
  · exact inBounds_Min_Inc s h
  · exact h
  · exact inBounds_Min_Dec s h
  · exact h
  · exact inBounds_Sec_Inc s h
  · exact h
  · exact inBounds_Sec_Dec s h
  · exact h

theorem inBounds_mainLoop (pins : Button → Nat) (s : State) (h : InBounds s) :
    InBounds (mainLoop pins s) := by
  unfold mainLoop
  repeat apply inBounds_pollButton
  exact inBounds_handleTick _ (inBounds_ledIndicator s h)

theorem inBounds_step (e : Event) (s t : State) (h : InBounds s) (hs : step e s = some t) :
    InBounds t := by
  cases e <;> simp only [step, Option.some.injEq] at hs
  · subst hs; exact inBounds_TIMER1 s h
  · exact inBounds_TIMER0 s t h hs
  · subst hs; exact inBounds_INT0 s
  · subst hs; exact inBounds_INT1 s h
  · subst hs; exact inBounds_INT2 s h
  · subst hs; exact inBounds_mainLoop _ s h

theorem inBounds_of_reachable (s : State) (h : Reachable s) : InBounds s := by
  induction h with
  | init => decide
  | next e s t _ hs ih => exact inBounds_step e s t ih hs

/-- Each operation, run from start to end with no interrupt inside it, keeps
the time fields in range: the bounds hold in the initial state and are kept by
the tick block, by the six adjustment functions, by the mode toggle and by the
reset, pause and resume handlers.  So they hold in every state reached when
interrupts arrive only between iterations of the main loop. -/
theorem bounds_kept_without_preemption :
    InBounds State.init ∧
    (∀ s : State, InBounds s → InBounds (handleTick s)) ∧
    (∀ s : State, InBounds s →
      InBounds (Hour_Inc s) ∧ InBounds (Hour_Dec s) ∧ InBounds (Min_Inc s) ∧
      InBounds (Min_Dec s) ∧ InBounds (Sec_Inc s) ∧ InBounds (Sec_Dec s)) ∧
    (∀ s : State, InBounds s → InBounds (stopwatch_toggle_mode s)) ∧
    (∀ s : State, InBounds s →
      InBounds (INT0_vect s) ∧ InBounds (INT1_vect s) ∧ InBounds (INT2_vect s)) ∧
    (∀ s : State, Reachable s → InBounds s) :=
  ⟨by decide, inBounds_handleTick,
   fun s h => ⟨inBounds_Hour_Inc s h, inBounds_Hour_Dec s h, inBounds_Min_Inc s h,
     inBounds_Min_Dec s h, inBounds_Sec_Inc s h, inBounds_Sec_Dec s h⟩,
   inBounds_toggle,
   fun s h => ⟨inBounds_INT0 s, inBounds_INT1 s h, inBounds_INT2 s h⟩,
   inBounds_of_reachable⟩

/-! ## One tick, counting up -/

theorem countUp_total (s : State) (h : InBounds s) :
    totalSeconds (countUp s) = (totalSeconds s + 1) % 86400 := by
  obtain ⟨h1, h2, h3⟩ := h
  simp only [MAX_HOURS, MAX_MINUTES, MAX_SECONDS] at h1 h2 h3
  simp only [totalSeconds, countUp, inc8, MAX_HOURS, MAX_MINUTES, MAX_SECONDS]
  split_ifs <;> (try dsimp only at *) <;> omega

theorem countUp_frame (s : State) :
    (countUp s).running = s.running ∧ (countUp s).countMode = s.countMode ∧
    (countUp s).PORTD = s.PORTD ∧ (countUp s).tick = s.tick := by
  simp only [countUp]
  split_ifs <;> exact ⟨rfl, rfl, rfl, rfl⟩

theorem handleTick_countUp (s : State) (ht : s.tick ≠ 0) (hr : s.running ≠ 0)
    (hm : s.countMode = COUNT_UP) : handleTick s = { countUp s with tick := 0 } := by
  simp [handleTick, tickBody, ht, hr, hm]

/-- C2: for an in-bounds time with running = true and mode = CountUp,
processing one pending tick yields the in-bounds time whose total seconds is
the old total plus one modulo 86400, and leaves running, mode and the alarm
output (the whole of PORTD) unchanged; 23:59:59 becomes 00:00:00. -/
theorem C2_count_up_tick (s : State) (hb : InBounds s) (ht : s.tick ≠ 0)
    (hr : s.running ≠ 0) (hm : s.countMode = COUNT_UP) :
    InBounds (handleTick s) ∧
    totalSeconds (handleTick s) = (totalSeconds s + 1) % 86400 ∧
    (handleTick s).running = s.running ∧
    (handleTick s).countMode = s.countMode ∧
    (handleTick s).PORTD = s.PORTD ∧
    alarm (handleTick s) = alarm s ∧
    (s.hours = 23 → s.minutes = 59 → s.seconds = 59 →
      (handleTick s).hours = 0 ∧ (handleTick s).minutes = 0 ∧
      (handleTick s).seconds = 0) := by
  have hin := inBounds_handleTick s hb
  have htot : totalSeconds (handleTick s) = (totalSeconds s + 1) % 86400 := by
    rw [handleTick_countUp s ht hr hm]
    exact countUp_total s hb
  obtain ⟨f1, f2, f3, _⟩ := countUp_frame s
  have hp : (handleTick s).PORTD = s.PORTD := by
    rw [handleTick_countUp s ht hr hm]; exact f3
  refine ⟨hin, htot, ?_, ?_, hp, ?_, ?_⟩
  · rw [handleTick_countUp s ht hr hm]; exact f1
  · rw [handleTick_countUp s ht hr hm]; exact f2
  · simp only [alarm, hp]
  · intro e1 e2 e3
    obtain ⟨b1, b2, b3⟩ := hin
    simp only [MAX_HOURS, MAX_MINUTES, MAX_SECONDS] at b1 b2 b3
    simp only [totalSeconds, e1, e2, e3] at htot
    omega

/-- C2 at 23:59:59, running, counting up, alarm off: the tick gives 00:00:00,
still running, still counting up, alarm still off. -/
theorem C2_count_up_tick_witness :
    totalSeconds (handleTick { State.init with
        hours := 23, minutes := 59, seconds := 59, tick := 1 }) = 0 ∧
    alarm (handleTick { State.init with
        hours := 23, minutes := 59, seconds := 59, tick := 1 }) = false ∧
    (handleTick { State.init with
        hours := 23, minutes := 59, seconds := 59, tick := 1 }).running = 1 :=
  have h := C2_count_up_tick
    { State.init with hours := 23, minutes := 59, seconds := 59, tick := 1 }
    (by decide) (by decide) (by decide) (by decide)
  ⟨h.2.1.trans (by decide), h.2.2.2.2.2.1.trans (by decide), h.2.2.1.trans (by decide)⟩

/-! ## One tick, counting down -/

theorem countDown_total (s : State) (h : InBounds s)
    (hz : ¬(s.hours = 0 ∧ s.minutes = 0 ∧ s.seconds = 0)) :
    totalSeconds (countDown s) + 1 = totalSeconds s := by
  obtain ⟨h1, h2, h3⟩ := h
  simp only [MAX_HOURS, MAX_MINUTES, MAX_SECONDS] at h1 h2 h3
  simp only [totalSeconds, countDown, dec8, if_neg hz]
  split_ifs <;> (try dsimp only at *) <;> omega

theorem countDown_frame (s : State)
    (hz : ¬(s.hours = 0 ∧ s.minutes = 0 ∧ s.seconds = 0)) :
    (countDown s).running = s.running ∧ (countDown s).countMode = s.countMode ∧
    (countDown s).PORTD = s.PORTD := by
  simp only [countDown, if_neg hz]
  split_ifs <;> exact ⟨rfl, rfl, rfl⟩

theorem handleTick_countDown (s : State) (ht : s.tick ≠ 0) (hr : s.running ≠ 0)
    (hm : s.countMode ≠ COUNT_UP) : handleTick s = { countDown s with tick := 0 } := by
  simp [handleTick, tickBody, ht, hr, hm]

/-- C3: for an in-bounds time other than 00:00:00 with running = true and
mode = CountDown (countMode differs from COUNT_UP), processing one pending
tick yields the in-bounds time whose total seconds is exactly one less, leaves
running and mode as they were and does not touch the alarm output; 00:00:01
becomes 00:00:00. -/
theorem C3_count_down_tick (s : State) (hb : InBounds s) (ht : s.tick ≠ 0)
    (hr : s.running ≠ 0) (hm : s.countMode ≠ COUNT_UP)
    (hz : ¬(s.hours = 0 ∧ s.minutes = 0 ∧ s.seconds = 0)) :
    InBounds (handleTick s) ∧
    totalSeconds (handleTick s) + 1 = totalSeconds s ∧
    (handleTick s).running = s.running ∧
    (handleTick s).countMode = s.countMode ∧
    (handleTick s).PORTD = s.PORTD ∧
    alarm (handleTick s) = alarm s ∧
    (s.hours = 0 → s.minutes = 0 → s.seconds = 1 →
      (handleTick s).hours = 0 ∧ (handleTick s).minutes = 0 ∧
      (handleTick s).seconds = 0) := by
  have hin := inBounds_handleTick s hb
  have htot : totalSeconds (handleTick s) + 1 = totalSeconds s := by
    rw [handleTick_countDown s ht hr hm]
    exact countDown_total s hb hz
  obtain ⟨f1, f2, f3⟩ := countDown_frame s hz
  have hp : (handleTick s).PORTD = s.PORTD := by
    rw [handleTick_countDown s ht hr hm]; exact f3
  refine ⟨hin, htot, ?_, ?_, hp, ?_, ?_⟩
  · rw [handleTick_countDown s ht hr hm]; exact f1
  · rw [handleTick_countDown s ht hr hm]; exact f2
  · simp only [alarm, hp]
  · intro e1 e2 e3
    simp only [totalSeconds, e1, e2, e3] at htot
    omega

/-- C3 at 00:00:01, running, counting down, alarm off: the tick gives
00:00:00, still running, alarm still off. -/
theorem C3_count_down_tick_witness :
    totalSeconds (handleTick { State.init with
        seconds := 1, countMode := COUNT_DOWN, tick := 1 }) + 1 = 1 ∧
    (handleTick { State.init with
        seconds := 1, countMode := COUNT_DOWN, tick := 1 }).running = 1 ∧
    alarm (handleTick { State.init with
        seconds := 1, countMode := COUNT_DOWN, tick := 1 }) = false :=
  have h := C3_count_down_tick
    { State.init with seconds := 1, countMode := COUNT_DOWN, tick := 1 }
    (by decide) (by decide) (by decide) (by decide) (by decide)
  ⟨h.2.1.trans (by decide), h.2.2.1.trans (by decide), h.2.2.2.2.2.1.trans (by decide)⟩

/-! ## Bits of an 8-bit port -/

theorem testBit_setBit8 (p n i : Nat) :
    (setBit8 p n).testBit i = (decide (i < 8) && (p.testBit i || decide (n = i))) := by
  unfold setBit8
  rw [show (256 : Nat) = 2 ^ 8 from rfl, Nat.testBit_mod_two_pow, Nat.testBit_or,
    Nat.one_shiftLeft, Nat.testBit_two_pow]

theorem testBit_clearBit8 (p n i : Nat) :
    (clearBit8 p n).testBit i = (p.testBit i && (decide (i < 8) && !decide (n = i))) := by
  unfold clearBit8
  rw [Nat.testBit_and, Nat.testBit_xor, show (256 : Nat) = 2 ^ 8 from rfl,
    Nat.testBit_mod_two_pow, Nat.one_shiftLeft, Nat.testBit_two_pow,
    show (255 : Nat) = 2 ^ 8 - 1 from rfl, Nat.testBit_two_pow_sub_one]
  by_cases h1 : i < 8 <;> by_cases h2 : n = i <;> simp [h1, h2]

/-! ## The tick at zero, and the tick while paused -/

theorem handleTick_at_zero (s : State) (ht : s.tick ≠ 0) (hr : s.running ≠ 0)
    (hm : s.countMode ≠ COUNT_UP)
    (h0 : s.hours = 0) (m0 : s.minutes = 0) (s0 : s.seconds = 0) :
    handleTick s = { s with PORTD := setBit8 s.PORTD PD0, running := 0, tick := 0 } := by
  rw [handleTick_countDown s ht hr hm]
  simp [countDown, h0, m0, s0]

/-- C4: with running = true, mode = CountDown (countMode differs from
COUNT_UP) and the time exactly 00:00:00, processing one pending tick sets bit
PD0 of PORTD (no other bit of the port changes), sets running to false and
leaves hours, minutes, seconds at 0 and the mode unchanged. -/
theorem C4_alarm_at_zero (s : State) (ht : s.tick ≠ 0) (hr : s.running ≠ 0)
    (hm : s.countMode ≠ COUNT_UP)
    (h0 : s.hours = 0) (m0 : s.minutes = 0) (s0 : s.seconds = 0) :
    alarm (handleTick s) = true ∧
    (handleTick s).PORTD = setBit8 s.PORTD PD0 ∧
    (∀ i : Nat, i ≠ PD0 → i < 8 →
      (handleTick s).PORTD.testBit i = s.PORTD.testBit i) ∧
    (handleTick s).running = 0 ∧
    (handleTick s).hours = 0 ∧ (handleTick s).minutes = 0 ∧
    (handleTick s).seconds = 0 ∧
    (handleTick s).countMode = s.countMode := by
  rw [handleTick_at_zero s ht hr hm h0 m0 s0]
  refine ⟨?_, rfl, ?_, rfl, h0, m0, s0, rfl⟩
  · simp only [alarm, testBit_setBit8]
    simp [PD0]
  · intro i hi h8
    have hne : ¬ (PD0 = i) := fun c => hi c.symm
    simp only [testBit_setBit8]
    simp [h8, hne]

/-- C4 at 00:00:00, running, counting down, alarm off: the tick turns the alarm
on and stops the clock. -/
theorem C4_alarm_at_zero_witness :
    alarm (handleTick { State.init with countMode := COUNT_DOWN, tick := 1 }) = true ∧
    (handleTick { State.init with countMode := COUNT_DOWN, tick := 1 }).running = 0 :=
  have h := C4_alarm_at_zero { State.init with countMode := COUNT_DOWN, tick := 1 }
    (by decide) (by decide) (by decide) rfl rfl rfl
  ⟨h.1, h.2.2.2.1⟩

theorem handleTick_paused (s : State) (hr : s.running = 0) :
    handleTick s = { s with tick := 0 } := by
  by_cases ht : s.tick = 0
  · simp only [handleTick, ht, ne_eq, not_true_eq_false, if_false]
    cases s
    simp only [State.mk.injEq, and_true, true_and] at *
    exact ht
  · simp [handleTick, tickBody, ht, hr]

theorem ticks_paused (s : State) (hr : s.running = 0) (n : Nat) :
    (fun t => handleTick (TIMER1_COMPA_vect t))^[n + 1] s = { s with tick := 0 } := by
  induction n with
  | zero =>
    simp only [zero_add, Function.iterate_one]
    rw [handleTick_paused _ (by simpa [TIMER1_COMPA_vect] using hr)]
    rfl
  | succ n ih =>
    rw [Function.iterate_succ_apply', ih,
      handleTick_paused _ (by simpa [TIMER1_COMPA_vect] using hr)]
    rfl

/-- C5: with running = false, processing a pending tick only clears the
pending-tick flag: hours, minutes, seconds, mode, running, the alarm output and
everything else are unchanged, and the same holds after any number of one-second
interrupts each followed by the tick handling.  In particular, once the
countdown has halted at 00:00:00, further ticks leave the time at 00:00:00,
the clock stopped and PORTD as it is. -/
theorem C5_tick_while_paused :
    (∀ s : State, s.running = 0 →
      handleTick s = { s with tick := 0 } ∧
      ∀ n : Nat,
        (fun t => handleTick (TIMER1_COMPA_vect t))^[n + 1] s = { s with tick := 0 }) ∧
    (∀ s : State, s.tick ≠ 0 → s.running ≠ 0 → s.countMode ≠ COUNT_UP →
      s.hours = 0 → s.minutes = 0 → s.seconds = 0 →
      ∀ n : Nat,
        ((fun t => handleTick (TIMER1_COMPA_vect t))^[n] (handleTick s)).hours = 0 ∧
        ((fun t => handleTick (TIMER1_COMPA_vect t))^[n] (handleTick s)).minutes = 0 ∧
        ((fun t => handleTick (TIMER1_COMPA_vect t))^[n] (handleTick s)).seconds = 0 ∧
        ((fun t => handleTick (TIMER1_COMPA_vect t))^[n] (handleTick s)).running = 0 ∧
        ((fun t => handleTick (TIMER1_COMPA_vect t))^[n] (handleTick s)).PORTD
          = (handleTick s).PORTD) := by
  refine ⟨fun s hr => ⟨handleTick_paused s hr, ticks_paused s hr⟩, ?_⟩
  intro s ht hr hm h0 m0 s0 n
  have e := handleTick_at_zero s ht hr hm h0 m0 s0
  have r : (handleTick s).running = 0 := by rw [e]
  have a : (handleTick s).hours = 0 := by rw [e]; exact h0
  have b : (handleTick s).minutes = 0 := by rw [e]; exact m0
  have c : (handleTick s).seconds = 0 := by rw [e]; exact s0
  cases n with
  | zero => exact ⟨a, b, c, r, rfl⟩
  | succ n =>
    rw [ticks_paused _ r n]
    exact ⟨a, b, c, r, rfl⟩

/-- C5 at the halted countdown: three further ticks change nothing but the
tick flag, and that one is already clear. -/
theorem C5_tick_while_paused_witness :
    (fun t => handleTick (TIMER1_COMPA_vect t))^[3] haltedState = haltedState :=
  ((C5_tick_while_paused.1 haltedState (by decide)).2 2).trans (by decide)

/-! ## The alarm output is never cleared -/

theorem alarm_ledIndicator (s : State) : alarm (ledIndicator s) = alarm s := by
  unfold ledIndicator alarm
  split_ifs <;> simp only [testBit_clearBit8, testBit_setBit8] <;> simp [PD0, PD4, PD5]

theorem PORTD_countDown (s : State) :
    (countDown s).PORTD = s.PORTD ∨ (countDown s).PORTD = setBit8 s.PORTD PD0 := by
  simp only [countDown]
  split_ifs
  · exact Or.inr rfl
  all_goals exact Or.inl rfl

theorem alarm_tickBody (s : State) (h : alarm s = true) : alarm (tickBody s) = true := by
  unfold tickBody
  split_ifs
  · simpa only [alarm, (countUp_frame s).2.2.1] using h
  · rcases PORTD_countDown s with e | e
    · simpa only [alarm, e] using h
    · simp only [alarm, e, testBit_setBit8]
      simp [PD0]
  · exact h

theorem alarm_handleTick (s : State) (h : alarm s = true) : alarm (handleTick s) = true := by
  unfold handleTick
  split_ifs
  · exact alarm_tickBody s h
  · exact h

theorem PORTD_pollButton (b : Button) (pinb : Nat) (s : State) :
    (pollButton b pinb s).PORTD = s.PORTD := by
  cases b <;>
    simp only [pollButton, stopwatch_toggle_mode, Hour_Inc, Hour_Dec, Min_Inc, Min_Dec,
      Sec_Inc, Sec_Dec] <;>
    split_ifs <;> rfl

theorem PORTD_mainLoop (pins : Button → Nat) (s : State) :
    (mainLoop pins s).PORTD = (handleTick (ledIndicator s)).PORTD := by
  simp only [mainLoop, PORTD_pollButton]

theorem alarm_step (e : Event) (s t : State) (h : alarm s = true)
    (hs : step e s = some t) : alarm t = true := by
  cases e <;> simp only [step, Option.some.injEq] at hs
  · subst hs; exact h
  · simp only [TIMER0_COMP_vect] at hs
    split at hs
    · exact absurd hs (by simp)
    · split at hs
      · exact absurd hs (by simp)
      · cases hs
        exact h
  · subst hs; exact h
  · subst hs; exact h
  · subst hs; exact h
  · subst hs
    simp only [alarm, PORTD_mainLoop]
    exact alarm_handleTick _ ((alarm_ledIndicator s).trans h)

theorem reachable_haltedState : Reachable haltedState :=
  Reachable.next (Event.loop (fun _ => 255)) _ _
    (Reachable.next Event.second _ _
      (Reachable.next (Event.loop (fun _ => 127)) _ _ Reachable.init rfl) rfl) rfl

/-- C6, as stated, fails: in the reachable state `haltedState` the alarm output
is asserted, and after the reset handler it is still asserted. -/
theorem C6_reset_keeps_alarm_counterexample :
    Reachable haltedState ∧ alarm haltedState = true ∧
    ¬ (alarm (INT0_vect haltedState) = false) :=
  ⟨reachable_haltedState, by decide, by decide⟩

/-- C6, amended: the alarm output is latched and the reset does not clear it.
For every state in which the alarm output is asserted, the reset handler leaves
PORTD as it is, so the alarm stays asserted; and it stays asserted after any
transition of the system (any interrupt handler, any main-loop iteration). -/
theorem C6_alarm_latched (s : State) (h : alarm s = true) :
    (INT0_vect s).PORTD = s.PORTD ∧
    alarm (INT0_vect s) = true ∧
    (∀ (e : Event) (t : State), step e s = some t → alarm t = true) :=
  ⟨rfl, h, fun e t hs => alarm_step e s t h hs⟩

/-- C6 amended, at the halted countdown: the alarm is on after the reset. -/
theorem C6_alarm_latched_witness :
    alarm haltedState = true ∧ alarm (INT0_vect haltedState) = true :=
  ⟨by decide, (C6_alarm_latched haltedState (by decide)).2.1⟩

/-! ## Reset, pause and resume -/

/-- C7: whatever mode and running are, the reset handler sets hours, minutes
and seconds to 0 and leaves mode and running exactly as they were. -/
theorem C7_reset_forces_zero (s : State) :
    (INT0_vect s).hours = 0 ∧ (INT0_vect s).minutes = 0 ∧ (INT0_vect s).seconds = 0 ∧
    (INT0_vect s).countMode = s.countMode ∧ (INT0_vect s).running = s.running ∧
    timeState (INT0_vect s) =
      { timeState s with hours := 0, minutes := 0, seconds := 0 } :=
  ⟨rfl, rfl, rfl, rfl, rfl, rfl⟩

/-- C8, as stated, fails: in the paused state reached by a pause interrupt from
the initial state, pause followed by resume gives a different TimeState (the
clock runs afterwards, it did not before). -/
theorem C8_pause_resume_counterexample :
    Reachable pausedState ∧
    timeState (INT2_vect (INT1_vect pausedState)) ≠ timeState pausedState :=
  ⟨Reachable.next Event.pause _ _ Reachable.init rfl, by decide⟩

/-- C8, amended: pause followed immediately by resume leaves hours, minutes,
seconds and mode unchanged and leaves running = true; so it yields the original
TimeState exactly when the clock was running. -/
theorem C8_pause_resume (s : State) :
    timeState (INT2_vect (INT1_vect s)) = { timeState s with running := true } ∧
    (s.running ≠ 0 → timeState (INT2_vect (INT1_vect s)) = timeState s) ∧
    (timeState (INT2_vect (INT1_vect s)) = timeState s → s.running ≠ 0) := by
  refine ⟨rfl, fun h => ?_, fun h => ?_⟩
  · simp [timeState, INT1_vect, INT2_vect, h]
  · have := congrArg TimeState.running h
    simpa [timeState, INT1_vect, INT2_vect] using this.symm

/-- C8 amended, at the initial (running) state. -/
theorem C8_pause_resume_witness :
    State.init.running ≠ 0 ∧
    timeState (INT2_vect (INT1_vect State.init)) = timeState State.init :=
  ⟨by decide, (C8_pause_resume State.init).2.1 (by decide)⟩

/-! ## Delivery of ticks: the pending-tick flag -/

theorem tick_handleTick (s : State) : (handleTick s).tick = 0 := by
  unfold handleTick
  split_ifs with h
  · rfl
  · exact not_not.mp h

theorem clock_ledIndicator (s : State) :
    clock (ledIndicator s) = clock s ∧ (ledIndicator s).tick = s.tick := by
  unfold ledIndicator
  split_ifs <;> exact ⟨rfl, rfl⟩

theorem clock_pollButton_idle (b : Button) (pinb : Nat) (s : State)
    (h : pressed pinb b.pin = false) :
    clock (pollButton b pinb s) = clock s ∧ (pollButton b pinb s).tick = s.tick := by
  cases b <;> simp only [Button.pin] at h <;> simp only [pollButton, h] <;> exact ⟨rfl, rfl⟩

theorem clock_tickBody_congr (a b : State) (h : clock a = clock b) :
    clock (tickBody a) = clock (tickBody b) := by
  simp only [clock, Prod.mk.injEq] at h
  obtain ⟨e1, e2, e3, e4, e5⟩ := h
  simp only [tickBody, countUp, countDown, e1, e2, e3, e4, e5]
  split_ifs <;> simp only [clock, e1, e2, e3, e4, e5]

theorem clock_handleTick (s : State) (ht : s.tick ≠ 0) :
    clock (handleTick s) = clock (tickBody s) := by
  simp only [handleTick, ht, ne_eq, not_false_eq_true, if_true]
  rfl

theorem mainLoop_idle (p : Button → Nat) (s : State) (hp : Idle p) :
    clock (mainLoop p s) = clock (handleTick (ledIndicator s)) ∧ (mainLoop p s).tick = 0 := by
  unfold mainLoop
  simp only [(clock_pollButton_idle _ _ _ (hp _)).1, (clock_pollButton_idle _ _ _ (hp _)).2,
    tick_handleTick, and_self]

theorem clock_deliver_one (p : Button → Nat) (s : State) (hp : Idle p) :
    clock (mainLoop p (TIMER1_COMPA_vect s)) = clock (tickBody s) := by
  rw [(mainLoop_idle p _ hp).1, clock_handleTick]
  · exact clock_tickBody_congr _ _ (clock_ledIndicator _).1
  · rw [(clock_ledIndicator _).2]
    exact Nat.one_ne_zero

theorem TIMER1_iterate (s : State) (k : Nat) :
    TIMER1_COMPA_vect^[k + 1] s = TIMER1_COMPA_vect s := by
  induction k with
  | zero => rfl
  | succ k ih => rw [Function.iterate_succ_apply', ih]; rfl

theorem drainTick_pending (p : Button → Nat) (fuel : Nat) (s : State) (hp : Idle p)
    (ht : s.tick ≠ 0) : drainTick p (fuel + 1) s = some (mainLoop p s) := by
  have h0 := (mainLoop_idle p s hp).2
  cases fuel <;> simp [drainTick, ht, h0]

theorem clock_deliver_each (p : Button → Nat) (s : State) (hp : Idle p) (k : Nat) :
    clock ((fun t => mainLoop p (TIMER1_COMPA_vect t))^[k] s) = clock (tickBody^[k] s) := by
  induction k with
  | zero => rfl
  | succ k ih =>
    rw [Function.iterate_succ_apply', Function.iterate_succ_apply', clock_deliver_one p _ hp]
    exact clock_tickBody_congr _ _ ih

theorem countUp_iterate (s : State) (hb : InBounds s) (hr : s.running ≠ 0)
    (hm : s.countMode = COUNT_UP) (k : Nat) :
    InBounds (tickBody^[k] s) ∧ (tickBody^[k] s).running ≠ 0 ∧
    (tickBody^[k] s).countMode = COUNT_UP ∧
    totalSeconds (tickBody^[k] s) = (totalSeconds s + k) % 86400 := by
  induction k with
  | zero =>
    refine ⟨hb, hr, hm, ?_⟩
    obtain ⟨h1, h2, h3⟩ := hb
    simp only [MAX_HOURS, MAX_MINUTES, MAX_SECONDS] at h1 h2 h3
    simp only [Function.iterate_zero, id_eq, totalSeconds]
    omega
  | succ k ih =>
    obtain ⟨ib, ir, im, it⟩ := ih
    rw [Function.iterate_succ_apply']
    have e : tickBody (tickBody^[k] s) = countUp (tickBody^[k] s) := by
      simp only [tickBody, ir, im, ne_eq, not_false_eq_true, if_true]
    rw [e]
    obtain ⟨f1, f2, _, _⟩ := countUp_frame (tickBody^[k] s)
    refine ⟨inBounds_countUp _ ib, by rw [f1]; exact ir, by rw [f2]; exact im, ?_⟩
    rw [countUp_total _ ib, it]
    omega

/-- C9, as stated, fails for k = 2: from the initial (running, count-up) state,
two one-second interrupts followed by the main loop running with no button
pressed until no tick is pending advance the time by one second, while two
applications of the tick transition advance it by two. -/
theorem C9_ticks_coalesce_counterexample :
    Idle (fun _ => 255) ∧ State.init.running ≠ 0 ∧
    (drainTick (fun _ => 255) 1 (TIMER1_COMPA_vect^[2] State.init)).map clock
      = some (0, 0, 1, 1, 1) ∧
    clock (tickBody^[2] State.init) = (0, 0, 2, 1, 1) :=
  ⟨fun b => by cases b <;> rfl, by decide, by decide, by decide⟩

/-- C9, amended: a one-second interrupt sets a pending flag, it does not count.
If k >= 1 one-second interrupts are delivered and the main loop then runs, with
no button pressed, until no tick is pending (one iteration is enough), the tick
transition has been applied exactly once.  If each interrupt is followed by a
main-loop iteration before the next one, the tick transition has been applied
exactly k times; for an in-bounds running state in CountUp that is k seconds
modulo 86400. -/
theorem C9_tick_flag_delivery (s : State) (k : Nat) (p : Button → Nat)
    (hk : 1 ≤ k) (hp : Idle p) :
    (∀ fuel : Nat, 1 ≤ fuel →
      ∃ t : State, drainTick p fuel (TIMER1_COMPA_vect^[k] s) = some t ∧
        t.tick = 0 ∧ clock t = clock (tickBody s)) ∧
    ((fun t => mainLoop p (TIMER1_COMPA_vect t))^[k] s).tick = 0 ∧
    clock ((fun t => mainLoop p (TIMER1_COMPA_vect t))^[k] s) = clock (tickBody^[k] s) ∧
    (InBounds s → s.running ≠ 0 → s.countMode = COUNT_UP →
      totalSeconds ((fun t => mainLoop p (TIMER1_COMPA_vect t))^[k] s)
        = (totalSeconds s + k) % 86400) := by
  obtain ⟨j, rfl⟩ : ∃ j, k = j + 1 := ⟨k - 1, by omega⟩
  refine ⟨?_, ?_, clock_deliver_each p s hp _, ?_⟩
  · intro fuel hf
    obtain ⟨g, rfl⟩ : ∃ g, fuel = g + 1 := ⟨fuel - 1, by omega⟩
    rw [TIMER1_iterate, drainTick_pending p g _ hp Nat.one_ne_zero]
    exact ⟨_, rfl, (mainLoop_idle p _ hp).2, clock_deliver_one p s hp⟩
  · rw [Function.iterate_succ_apply']
    exact (mainLoop_idle p _ hp).2
  · intro hb hr hm
    have hc := clock_deliver_each p s hp (j + 1)
    have ht := (countUp_iterate s hb hr hm (j + 1)).2.2.2
    simp only [clock, Prod.mk.injEq] at hc
    simp only [totalSeconds] at ht ⊢
    rw [hc.1, hc.2.1, hc.2.2.1]
    exact ht

/-- C9 amended, at the initial state with three interrupts: delivered in a row
they advance the time by one second, delivered one per loop iteration by
three. -/
theorem C9_tick_flag_delivery_witness :
    (∃ t : State, drainTick (fun _ => 255) 1 (TIMER1_COMPA_vect^[3] State.init) = some t ∧
        t.tick = 0 ∧ clock t = (0, 0, 1, 1, 1)) ∧
    totalSeconds ((fun t => mainLoop (fun _ => 255) (TIMER1_COMPA_vect t))^[3] State.init)
      = 3 :=
  have h := C9_tick_flag_delivery State.init 3 (fun _ => 255) (by decide)
    (fun b => by cases b <;> rfl)
  ⟨(h.1 1 (le_refl 1)).imp (fun _ ht => ⟨ht.1, ht.2.1, ht.2.2.trans (by decide)⟩),
   (h.2.2.2 (by decide) (by decide) rfl).trans (by decide)⟩

/-! ## One action per press -/

theorem flag_fired_ledIndicator (b : Button) (s : State) :
    b.flag (ledIndicator s) = b.flag s ∧ (ledIndicator s).fired = s.fired := by
  unfold ledIndicator
  split_ifs <;> cases b <;> exact ⟨rfl, rfl⟩

theorem flag_fired_tickBody (b : Button) (s : State) :
    b.flag (tickBody s) = b.flag s ∧ (tickBody s).fired = s.fired := by
  simp only [tickBody, countUp, countDown]
  split_ifs <;> cases b <;> exact ⟨rfl, rfl⟩

theorem flag_fired_handleTick (b : Button) (s : State) :
    b.flag (handleTick s) = b.flag s ∧ (handleTick s).fired = s.fired := by
  unfold handleTick
  split_ifs
  · obtain ⟨h1, h2⟩ := flag_fired_tickBody b s
    exact ⟨by rw [← h1]; cases b <;> rfl, h2⟩
  · exact ⟨rfl, rfl⟩

theorem pollButton_other (b c : Button) (pinb : Nat) (s : State) (h : b ≠ c) :
    b.flag (pollButton c pinb s) = b.flag s ∧
    actionCount b (pollButton c pinb s) = actionCount b s := by
  cases c <;> cases b <;> first
    | exact absurd rfl h
    | (simp only [pollButton, stopwatch_toggle_mode, Hour_Inc, Hour_Dec, Min_Inc, Min_Dec,
        Sec_Inc, Sec_Dec, actionCount]
       split_ifs <;> simp [Button.flag])

theorem pollButton_self (b : Button) (pinb : Nat) (s : State) :
    (b.flag (pollButton b pinb s) = 0 ↔ pressed pinb b.pin = false) ∧
    actionCount b (pollButton b pinb s)
      = actionCount b s + (if pressed pinb b.pin = true ∧ b.flag s = 0 then 1 else 0) := by
  cases b <;>
    simp only [pollButton, stopwatch_toggle_mode, Hour_Inc, Hour_Dec, Min_Inc, Min_Dec,
      Sec_Inc, Sec_Dec, actionCount, Button.pin, Button.flag] <;>
    split_ifs <;> simp_all

theorem mainLoop_button (b : Button) (p : Button → Nat) (s : State) :
    (b.flag (mainLoop p s) = 0 ↔ pressed (p b) b.pin = false) ∧
    actionCount b (mainLoop p s)
      = actionCount b s + (if pressed (p b) b.pin = true ∧ b.flag s = 0 then 1 else 0) := by
  have hc : ∀ t : State, actionCount b (handleTick (ledIndicator t)) = actionCount b t := by
    intro t
    simp only [actionCount, (flag_fired_handleTick b _).2, (flag_fired_ledIndicator b _).2]
  have hf : ∀ t : State, b.flag (handleTick (ledIndicator t)) = b.flag t := by
    intro t
    rw [(flag_fired_handleTick b _).1, (flag_fired_ledIndicator b _).1]
  unfold mainLoop
  cases b <;>
    simp (disch := decide) only [(pollButton_other _ _ _ _ _).1, (pollButton_other _ _ _ _ _).2,
      (pollButton_self _ _ _).1, (pollButton_self _ _ _).2, hc, hf, true_and]

theorem runLoop_cons (p : Button → Nat) (ps : List (Button → Nat)) (s : State) :
    runLoop (p :: ps) s = runLoop ps (mainLoop p s) := rfl

theorem runLoop_append (ps qs : List (Button → Nat)) (s : State) :
    runLoop (ps ++ qs) s = runLoop qs (runLoop ps s) := by
  simp only [runLoop, List.foldl_append]

theorem runLoop_count (b : Button) (ps : List (Button → Nat)) :
    ∀ s : State, actionCount b (runLoop ps s)
      = actionCount b s + risingEdges (decide (b.flag s ≠ 0)) (samples b ps) := by
  induction ps with
  | nil => intro s; rfl
  | cons p ps ih =>
    intro s
    obtain ⟨hf, hc⟩ := mainLoop_button b p s
    rw [runLoop_cons, ih, hc]
    simp only [samples, List.map_cons, risingEdges]
    have e : decide (b.flag (mainLoop p s) ≠ 0) = pressed (p b) b.pin := by
      cases hp : pressed (p b) b.pin
      · simpa using hf.mpr hp
      · have : ¬ b.flag (mainLoop p s) = 0 := fun c => by
          rw [hf.mp c] at hp; exact Bool.noConfusion hp
        simpa using this
    rw [e]
    generalize List.map (fun q : Button → Nat => pressed (q b) b.pin) ps = l
    rcases Bool.eq_false_or_eq_true (pressed (p b) b.pin) with hp | hp <;>
      by_cases hz : b.flag s = 0 <;> simp [hp, hz, Nat.add_assoc]

theorem risingEdges_held (l : List Bool) (h : ∀ x ∈ l, x = true) :
    risingEdges true l = 0 := by
  induction l with
  | nil => rfl
  | cons x xs ih =>
    have hx : x = true := h x (List.mem_cons_self x xs)
    subst hx
    simp only [risingEdges, Bool.not_true, Bool.and_false, Bool.false_eq_true, if_false,
      zero_add]
    exact ih (fun y hy => h y (List.mem_cons_of_mem _ hy))

theorem activeRuns_held (l : List Bool) (hne : l ≠ []) (h : ∀ x ∈ l, x = true) :
    activeRuns l = 1 := by
  cases l with
  | nil => exact absurd rfl hne
  | cons x xs =>
    have hx : x = true := h x (List.mem_cons_self x xs)
    subst hx
    simp only [activeRuns, risingEdges, Bool.not_false, Bool.and_true, if_true]
    rw [risingEdges_held xs (fun y hy => h y (List.mem_cons_of_mem _ hy))]

theorem samples_held (b : Button) (ps : List (Button → Nat))
    (h : ∀ p ∈ ps, pressed (p b) b.pin = true) : ∀ x ∈ samples b ps, x = true := by
  intro x hx
  simp only [samples, List.mem_map] at hx
  obtain ⟨p, hp, rfl⟩ := hx
  exact h p hp

/-- C10: for each of the seven polled buttons and every finite run of main-loop
iterations (any values read from PINB), starting with the button's latch clear,
the number of times the button's action is performed equals the number of
maximal runs of consecutive active samples of its line.  A button held through
a non-empty run of iterations performs exactly one action; a release (one
inactive sample) followed by a non-empty run of active samples performs exactly
one more. -/
theorem C10_one_action_per_press (b : Button) (ps : List (Button → Nat)) (s : State)
    (h : b.flag s = 0) :
    actionCount b (runLoop ps s) = actionCount b s + activeRuns (samples b ps) ∧
    (ps ≠ [] → (∀ p ∈ ps, pressed (p b) b.pin = true) →
      actionCount b (runLoop ps s) = actionCount b s + 1) ∧
    (∀ (r : Button → Nat) (qs : List (Button → Nat)),
      pressed (r b) b.pin = false → qs ≠ [] → (∀ q ∈ qs, pressed (q b) b.pin = true) →
      actionCount b (runLoop (ps ++ r :: qs) s) = actionCount b (runLoop ps s) + 1) := by
  have main : ∀ (qs : List (Button → Nat)) (t : State), b.flag t = 0 →
      actionCount b (runLoop qs t) = actionCount b t + activeRuns (samples b qs) := by
    intro qs t ht
    rw [runLoop_count b qs t, activeRuns]
    simp [ht]
  have held : ∀ (qs : List (Button → Nat)) (t : State), b.flag t = 0 → qs ≠ [] →
      (∀ q ∈ qs, pressed (q b) b.pin = true) →
      actionCount b (runLoop qs t) = actionCount b t + 1 := by
    intro qs t ht hne hall
    rw [main qs t ht, activeRuns_held _ _ (samples_held b qs hall)]
    simpa [samples] using hne
  refine ⟨main ps s h, held ps s h, ?_⟩
  intro r qs hr hne hall
  obtain ⟨hf, hc⟩ := mainLoop_button b r (runLoop ps s)
  rw [runLoop_append, runLoop_cons, held qs _ (hf.mpr hr) hne hall, hc]
  simp [hr]

/-- C10 for the hour-increment button from the initial state: held for two
iterations, released, pressed again (bit 1 of PINB reads 0 when pressed) gives
two actions. -/
theorem C10_one_action_per_press_witness :
    Button.hourInc.flag State.init = 0 ∧
    actionCount Button.hourInc
      (runLoop [fun _ => 253, fun _ => 253, fun _ => 255, fun _ => 253] State.init) = 2 :=
  ⟨rfl,
   (C10_one_action_per_press Button.hourInc
      [fun _ => 253, fun _ => 253, fun _ => 255, fun _ => 253] State.init rfl).1.trans
     (by decide)⟩

/-! ## The adjustment actions -/

theorem Hour_Inc_fields (s : State) (hb : InBounds s) (hf : s.hour_inc_flag = 0) :
    (Hour_Inc s).hours = (s.hours + 1) % 24 ∧ (Hour_Inc s).minutes = s.minutes ∧
    (Hour_Inc s).seconds = s.seconds ∧ (Hour_Inc s).running = s.running ∧
    (Hour_Inc s).countMode = s.countMode := by
  obtain ⟨h1, _, _⟩ := hb
  simp only [MAX_HOURS] at h1
  unfold Hour_Inc
  rw [if_pos hf]
  refine ⟨?_, rfl, rfl, rfl, rfl⟩
  simp only [inc8, MAX_HOURS]
  split_ifs <;> omega

theorem Hour_Dec_fields (s : State) (hb : InBounds s) (hf : s.hour_dec_flag = 0) :
    (Hour_Dec s).hours = (s.hours + 23) % 24 ∧ (Hour_Dec s).minutes = s.minutes ∧
    (Hour_Dec s).seconds = s.seconds ∧ (Hour_Dec s).running = s.running ∧
    (Hour_Dec s).countMode = s.countMode := by
  obtain ⟨h1, _, _⟩ := hb
  simp only [MAX_HOURS] at h1
  unfold Hour_Dec
  rw [if_pos hf]
  refine ⟨?_, rfl, rfl, rfl, rfl⟩
  simp only [dec8, MAX_HOURS]
  split_ifs <;> omega

theorem Min_Inc_fields (s : State) (hb : InBounds s) (hf : s.min_inc_flag = 0) :
    (Min_Inc s).minutes = (s.minutes + 1) % 60 ∧ (Min_Inc s).hours = s.hours ∧
    (Min_Inc s).seconds = s.seconds ∧ (Min_Inc s).running = s.running ∧
    (Min_Inc s).countMode = s.countMode := by
  obtain ⟨_, h2, _⟩ := hb
  simp only [MAX_MINUTES] at h2
  unfold Min_Inc
  rw [if_pos hf]
  refine ⟨?_, rfl, rfl, rfl, rfl⟩
  simp only [inc8, MAX_MINUTES]
  split_ifs <;> omega

theorem Min_Dec_fields (s : State) (hb : InBounds s) (hf : s.min_dec_flag = 0) :
    (Min_Dec s).minutes = (s.minutes + 59) % 60 ∧ (Min_Dec s).hours = s.hours ∧
    (Min_Dec s).seconds = s.seconds ∧ (Min_Dec s).running = s.running ∧
    (Min_Dec s).countMode = s.countMode := by
  obtain ⟨_, h2, _⟩ := hb
  simp only [MAX_MINUTES] at h2
  unfold Min_Dec
  rw [if_pos hf]
  refine ⟨?_, rfl, rfl, rfl, rfl⟩
  simp only [dec8, MAX_MINUTES]
  split_ifs <;> omega

theorem Sec_Inc_fields (s : State) (hb : InBounds s) (hf : s.sec_inc_flag = 0) :
    (Sec_Inc s).seconds = (s.seconds + 1) % 60 ∧ (Sec_Inc s).hours = s.hours ∧
    (Sec_Inc s).minutes = s.minutes ∧ (Sec_Inc s).running = s.running ∧
    (Sec_Inc s).countMode = s.countMode := by
  obtain ⟨_, _, h3⟩ := hb
  simp only [MAX_SECONDS] at h3
  unfold Sec_Inc
  rw [if_pos hf]
  refine ⟨?_, rfl, rfl, rfl, rfl⟩
  simp only [inc8, MAX_SECONDS]
  split_ifs <;> omega

theorem Sec_Dec_fields (s : State) (hb : InBounds s) (hf : s.sec_dec_flag = 0) :
    (Sec_Dec s).seconds = (s.seconds + 59) % 60 ∧ (Sec_Dec s).hours = s.hours ∧
    (Sec_Dec s).minutes = s.minutes ∧ (Sec_Dec s).running = s.running ∧
    (Sec_Dec s).countMode = s.countMode := by
  obtain ⟨_, _, h3⟩ := hb
  simp only [MAX_SECONDS] at h3
  unfold Sec_Dec
  rw [if_pos hf]
  refine ⟨?_, rfl, rfl, rfl, rfl⟩
  simp only [dec8, MAX_SECONDS]
  split_ifs <;> omega

/-- C11: for an in-bounds state, whatever running and mode are, each adjustment
action called with its latch clear wraps its own field: Hour_Inc gives
(hours + 1) mod 24, Hour_Dec gives (hours + 23) mod 24, Min_Inc and Sec_Inc
give (v + 1) mod 60, Min_Dec and Sec_Dec give (v + 59) mod 60; the other two
time fields, running and mode are unchanged. -/
theorem C11_adjust_wraps (s : State) (hb : InBounds s) :
    (s.hour_inc_flag = 0 →
      (Hour_Inc s).hours = (s.hours + 1) % 24 ∧ (Hour_Inc s).minutes = s.minutes ∧
      (Hour_Inc s).seconds = s.seconds ∧ (Hour_Inc s).running = s.running ∧
      (Hour_Inc s).countMode = s.countMode) ∧
    (s.hour_dec_flag = 0 →
      (Hour_Dec s).hours = (s.hours + 23) % 24 ∧ (Hour_Dec s).minutes = s.minutes ∧
      (Hour_Dec s).seconds = s.seconds ∧ (Hour_Dec s).running = s.running ∧
      (Hour_Dec s).countMode = s.countMode) ∧
    (s.min_inc_flag = 0 →
      (Min_Inc s).minutes = (s.minutes + 1) % 60 ∧ (Min_Inc s).hours = s.hours ∧
      (Min_Inc s).seconds = s.seconds ∧ (Min_Inc s).running = s.running ∧
      (Min_Inc s).countMode = s.countMode) ∧
    (s.min_dec_flag = 0 →
      (Min_Dec s).minutes = (s.minutes + 59) % 60 ∧ (Min_Dec s).hours = s.hours ∧
      (Min_Dec s).seconds = s.seconds ∧ (Min_Dec s).running = s.running ∧
      (Min_Dec s).countMode = s.countMode) ∧
    (s.sec_inc_flag = 0 →
      (Sec_Inc s).seconds = (s.seconds + 1) % 60 ∧ (Sec_Inc s).hours = s.hours ∧
      (Sec_Inc s).minutes = s.minutes ∧ (Sec_Inc s).running = s.running ∧
      (Sec_Inc s).countMode = s.countMode) ∧
    (s.sec_dec_flag = 0 →
      (Sec_Dec s).seconds = (s.seconds + 59) % 60 ∧ (Sec_Dec s).hours = s.hours ∧
      (Sec_Dec s).minutes = s.minutes ∧ (Sec_Dec s).running = s.running ∧
      (Sec_Dec s).countMode = s.countMode) :=
  ⟨Hour_Inc_fields s hb, Hour_Dec_fields s hb, Min_Inc_fields s hb, Min_Dec_fields s hb,
   Sec_Inc_fields s hb, Sec_Dec_fields s hb⟩

/-- C11 at the wrap points: from 23:59:59 the increments give 0, from 00:00:00
(paused, counting down) the decrements give 23, 59 and 59. -/
theorem C11_adjust_wraps_witness :
    (Hour_Inc { State.init with hours := 23, minutes := 59, seconds := 59 }).hours = 0 ∧
    (Min_Inc { State.init with hours := 23, minutes := 59, seconds := 59 }).minutes = 0 ∧
    (Sec_Inc { State.init with hours := 23, minutes := 59, seconds := 59 }).seconds = 0 ∧
    (Hour_Dec { State.init with running := 0, countMode := COUNT_DOWN }).hours = 23 ∧
    (Min_Dec { State.init with running := 0, countMode := COUNT_DOWN }).minutes = 59 ∧
    (Sec_Dec { State.init with running := 0, countMode := COUNT_DOWN }).seconds = 59 :=
  have a := C11_adjust_wraps
    { State.init with hours := 23, minutes := 59, seconds := 59 } (by decide)
  have b := C11_adjust_wraps
    { State.init with running := 0, countMode := COUNT_DOWN } (by decide)
  ⟨(a.1 rfl).1, (a.2.2.1 rfl).1, (a.2.2.2.2.1 rfl).1,
   (b.2.1 rfl).1, (b.2.2.2.1 rfl).1, (b.2.2.2.2.2 rfl).1⟩

/-! ## Sixty presses of the seconds-increment button -/

theorem pressOnce_secInc (up down : Nat) (s : State)
    (hu : pressed up PB6 = false) (hd : pressed down PB6 = true) :
    pressOnce Button.secInc up down s = Sec_Inc { s with sec_inc_flag := 0 } := by
  simp only [pressOnce, pollButton, hu, hd, if_true, Bool.false_eq_true, if_false]

theorem seconds_Sec_Inc_clear (s : State) (h : s.seconds < MAX_SECONDS) :
    (Sec_Inc { s with sec_inc_flag := 0 }).seconds = (s.seconds + 1) % 60 := by
  simp only [MAX_SECONDS] at h
  unfold Sec_Inc
  rw [if_pos rfl]
  simp only [inc8, MAX_SECONDS]
  split_ifs <;> omega

theorem seconds_presses (s : State) (h : s.seconds < MAX_SECONDS) (k : Nat) :
    ((fun t : State => Sec_Inc { t with sec_inc_flag := 0 })^[k] s).seconds
      = (s.seconds + k) % 60 := by
  simp only [MAX_SECONDS] at h
  induction k with
  | zero =>
    simp only [Function.iterate_zero, id_eq, Nat.add_zero]
    omega
  | succ k ih =>
    rw [Function.iterate_succ_apply', seconds_Sec_Inc_clear, ih]
    · omega
    · rw [ih]
      simp only [MAX_SECONDS]
      omega

/-- C12: for every starting value of seconds in its range (below 60), sixty
separate presses of the seconds-increment button (Sec_Inc called sixty times,
each time with its latch clear) return seconds to its starting value; the same
holds when each press is a poll with the line inactive followed by a poll with
the line active. -/
theorem C12_sixty_increments (s : State) (h : s.seconds < MAX_SECONDS) :
    ((fun t : State => Sec_Inc { t with sec_inc_flag := 0 })^[60] s).seconds = s.seconds ∧
    (∀ up down : Nat, pressed up PB6 = false → pressed down PB6 = true →
      ((pressOnce Button.secInc up down)^[60] s).seconds = s.seconds) := by
  have key : ((fun t : State => Sec_Inc { t with sec_inc_flag := 0 })^[60] s).seconds
      = s.seconds := by
    rw [seconds_presses s h 60]
    simp only [MAX_SECONDS] at h
    omega
  refine ⟨key, fun up down hu hd => ?_⟩
  have e : pressOnce Button.secInc up down
      = fun t : State => Sec_Inc { t with sec_inc_flag := 0 } :=
    funext fun t => pressOnce_secInc up down t hu hd
  rw [e]
  exact key

/-- C12 from 00:00:37: sixty presses (PINB reads 255 when released, 191 when
the seconds-increment button on PB6 is down) give 37 again. -/
theorem C12_sixty_increments_witness :
    ((pressOnce Button.secInc 255 191)^[60] { State.init with seconds := 37 }).seconds = 37 :=
  (C12_sixty_increments { State.init with seconds := 37 } (by decide)).2 255 191 rfl rfl

/-! ## Increment and decrement undo each other -/

theorem Hour_Inc_frame (s : State) :
    (Hour_Inc s).hour_dec_flag = s.hour_dec_flag := by
  unfold Hour_Inc
  split_ifs <;> rfl

theorem Hour_Dec_frame (s : State) :
    (Hour_Dec s).hour_inc_flag = s.hour_inc_flag := by
  unfold Hour_Dec
  split_ifs <;> rfl

theorem Min_Inc_frame (s : State) :
    (Min_Inc s).min_dec_flag = s.min_dec_flag := by
  unfold Min_Inc
  split_ifs <;> rfl

theorem Min_Dec_frame (s : State) :
    (Min_Dec s).min_inc_flag = s.min_inc_flag := by
  unfold Min_Dec
  split_ifs <;> rfl

theorem Sec_Inc_frame (s : State) :
    (Sec_Inc s).sec_dec_flag = s.sec_dec_flag := by
  unfold Sec_Inc
  split_ifs <;> rfl

theorem Sec_Dec_frame (s : State) :
    (Sec_Dec s).sec_inc_flag = s.sec_inc_flag := by
  unfold Sec_Dec
  split_ifs <;> rfl

/-- C20: on an in-bounds state with both latches of a field clear, decrement
after increment and increment after decrement restore the field: Hour_Inc and
Hour_Dec for hours, Min_Inc and Min_Dec for minutes, Sec_Inc and Sec_Dec for
seconds, the wrap points 0 and max-1 included. -/
theorem C20_inc_dec_inverse (s : State) (hb : InBounds s) :
    (s.hour_inc_flag = 0 → s.hour_dec_flag = 0 →
      (Hour_Dec (Hour_Inc s)).hours = s.hours ∧ (Hour_Inc (Hour_Dec s)).hours = s.hours) ∧
    (s.min_inc_flag = 0 → s.min_dec_flag = 0 →
      (Min_Dec (Min_Inc s)).minutes = s.minutes ∧
      (Min_Inc (Min_Dec s)).minutes = s.minutes) ∧
    (s.sec_inc_flag = 0 → s.sec_dec_flag = 0 →
      (Sec_Dec (Sec_Inc s)).seconds = s.seconds ∧
      (Sec_Inc (Sec_Dec s)).seconds = s.seconds) := by
  have hb0 := hb
  obtain ⟨h1, h2, h3⟩ := hb0
  simp only [MAX_HOURS, MAX_MINUTES, MAX_SECONDS] at h1 h2 h3
  refine ⟨fun hi hd => ⟨?_, ?_⟩, fun hi hd => ⟨?_, ?_⟩, fun hi hd => ⟨?_, ?_⟩⟩
  · rw [(Hour_Dec_fields _ (inBounds_Hour_Inc s hb) ((Hour_Inc_frame s).trans hd)).1,
      (Hour_Inc_fields s hb hi).1]
    omega
  · rw [(Hour_Inc_fields _ (inBounds_Hour_Dec s hb) ((Hour_Dec_frame s).trans hi)).1,
      (Hour_Dec_fields s hb hd).1]
    omega
  · rw [(Min_Dec_fields _ (inBounds_Min_Inc s hb) ((Min_Inc_frame s).trans hd)).1,
      (Min_Inc_fields s hb hi).1]
    omega
  · rw [(Min_Inc_fields _ (inBounds_Min_Dec s hb) ((Min_Dec_frame s).trans hi)).1,
      (Min_Dec_fields s hb hd).1]
    omega
  · rw [(Sec_Dec_fields _ (inBounds_Sec_Inc s hb) ((Sec_Inc_frame s).trans hd)).1,
      (Sec_Inc_fields s hb hi).1]
    omega
  · rw [(Sec_Inc_fields _ (inBounds_Sec_Dec s hb) ((Sec_Dec_frame s).trans hi)).1,
      (Sec_Dec_fields s hb hd).1]
    omega

/-- C20 at the wrap points 23:59:59 and 00:00:00. -/
theorem C20_inc_dec_inverse_witness :
    (Hour_Dec (Hour_Inc { State.init with hours := 23, minutes := 59, seconds := 59 })).hours
      = 23 ∧
    (Min_Dec (Min_Inc { State.init with hours := 23, minutes := 59, seconds := 59 })).minutes
      = 59 ∧
    (Sec_Dec (Sec_Inc { State.init with hours := 23, minutes := 59, seconds := 59 })).seconds
      = 59 ∧
    (Hour_Inc (Hour_Dec State.init)).hours = 0 ∧
    (Min_Inc (Min_Dec State.init)).minutes = 0 ∧
    (Sec_Inc (Sec_Dec State.init)).seconds = 0 :=
  have a := C20_inc_dec_inverse
    { State.init with hours := 23, minutes := 59, seconds := 59 } (by decide)
  have b := C20_inc_dec_inverse State.init (by decide)
  ⟨(a.1 rfl rfl).1, (a.2.1 rfl rfl).1, (a.2.2 rfl rfl).1,
   (b.1 rfl rfl).2, (b.2.1 rfl rfl).2, (b.2.2 rfl rfl).2⟩

/-! ## The refresh handler -/

theorem digit_to_bcd_get (d : Nat) (h : d < 10) : digit_to_bcd[d]? = some d := by
  interval_cases d <;> rfl

theorem digits_get (s : State) (hb : InBounds s) (hc : s.currentDigit < 6) :
    ∃ d : Nat, (digits s)[s.currentDigit]? = some d ∧ d ≤ 9 ∧
      (digits s).getD s.currentDigit 0 = d := by
  obtain ⟨h1, h2, h3⟩ := hb
  simp only [MAX_HOURS, MAX_MINUTES, MAX_SECONDS] at h1 h2 h3
  obtain ⟨c, e⟩ : ∃ c, s.currentDigit = c := ⟨_, rfl⟩
  rw [e] at hc ⊢
  interval_cases c
  · exact ⟨s.hours / 10, rfl, by omega, rfl⟩
  · exact ⟨s.hours % 10, rfl, by omega, rfl⟩
  · exact ⟨s.minutes / 10, rfl, by omega, rfl⟩
  · exact ⟨s.minutes % 10, rfl, by omega, rfl⟩
  · exact ⟨s.seconds / 10, rfl, by omega, rfl⟩
  · exact ⟨s.seconds % 10, rfl, by omega, rfl⟩

theorem TIMER0_of_reads (s : State) (d v : Nat)
    (hd : (digits s)[s.currentDigit]? = some d) (hv : digit_to_bcd[d]? = some v) :
    TIMER0_COMP_vect s = some { s with
      PORTA := (1 <<< s.currentDigit) % 256
      PORTC := v
      currentDigit :=
        if inc8 s.currentDigit ≥ MULTI_SEG_COUNT then 0 else inc8 s.currentDigit } := by
  simp only [digits] at hd
  simp only [TIMER0_COMP_vect, hd, hv]

theorem TIMER0_reads (s t : State) (h : TIMER0_COMP_vect s = some t) :
    ∃ d v : Nat, (digits s)[s.currentDigit]? = some d ∧ digit_to_bcd[d]? = some v ∧
      t = { s with
        PORTA := (1 <<< s.currentDigit) % 256
        PORTC := v
        currentDigit :=
          if inc8 s.currentDigit ≥ MULTI_SEG_COUNT then 0 else inc8 s.currentDigit } := by
  simp only [TIMER0_COMP_vect] at h
  split at h
  · exact absurd h (by simp)
  · rename_i d hd
    split at h
    · exact absurd h (by simp)
    · rename_i v hv
      cases h
      exact ⟨d, v, hd, hv, rfl⟩

theorem cursor_next (c : Nat) (hc : c < 6) :
    (if inc8 c ≥ MULTI_SEG_COUNT then 0 else inc8 c) = (c + 1) % 6 := by
  simp only [inc8, MULTI_SEG_COUNT]
  split_ifs <;> omega

theorem enable_value (c : Nat) (hc : c < 6) : (1 <<< c) % 256 = 2 ^ c := by
  rw [Nat.one_shiftLeft]
  interval_cases c <;> rfl

theorem TIMER0_ok (s : State) (hb : InBounds s) (hc : s.currentDigit < 6) :
    TIMER0_COMP_vect s = some { s with
      PORTA := 2 ^ s.currentDigit
      PORTC := (digits s).getD s.currentDigit 0
      currentDigit := (s.currentDigit + 1) % 6 } := by
  obtain ⟨d, hd, h9, hg⟩ := digits_get s hb hc
  rw [TIMER0_of_reads s d d hd (digit_to_bcd_get d (by omega)), cursor_next _ hc,
    enable_value _ hc, hg]

theorem enable_lt (c : Nat) (hc : c < 6) : 2 ^ c < 64 := by
  interval_cases c <;> decide

/-- C13: for a refresh invocation with the cursor c in [0,6), the value written
to the digit-enable port PORTA is 2^c, so exactly one bit is set, it is bit c
(the cursor before it is advanced), and the value lies within the six
digit-enable bits 0..5; on an in-bounds state the invocation completes. -/
theorem C13_digit_enable_one_hot (s : State) (hc : s.currentDigit < 6) :
    (∀ t : State, TIMER0_COMP_vect s = some t →
      t.PORTA = 2 ^ s.currentDigit ∧
      (∀ i : Nat, t.PORTA.testBit i = decide (s.currentDigit = i)) ∧
      t.PORTA < 64) ∧
    (InBounds s → ∃ t : State, TIMER0_COMP_vect s = some t) := by
  refine ⟨fun t ht => ?_, fun hb => ⟨_, TIMER0_ok s hb hc⟩⟩
  obtain ⟨d, v, _, _, rfl⟩ := TIMER0_reads s t ht
  have e : (1 <<< s.currentDigit) % 256 = 2 ^ s.currentDigit := enable_value _ hc
  refine ⟨e, fun i => ?_, ?_⟩
  · show ((1 <<< s.currentDigit) % 256).testBit i = _
    rw [e, Nat.testBit_two_pow]
  · show (1 <<< s.currentDigit) % 256 < 64
    rw [e]
    exact enable_lt _ hc

/-- C13 with the cursor at 3 in the initial time: the refresh completes and
leaves 8 (bit 3 alone) on the digit-enable port. -/
theorem C13_digit_enable_one_hot_witness :
    ∃ t : State, TIMER0_COMP_vect { State.init with currentDigit := 3 } = some t ∧
      t.PORTA = 8 :=
  have h := C13_digit_enable_one_hot { State.init with currentDigit := 3 } (by decide)
  (h.2 (by decide)).imp fun t ht => ⟨ht, (h.1 t ht).1⟩

/-- C18: on a state with hours < 24, minutes < 60, seconds < 60 and the cursor
in [0,6) the refresh handler cannot fail: the index into the 6-element digit
array is in range, the selected digit is at most 9, so the index into the
10-entry table is in range, the handler completes, and the value it drives on
the value port PORTC is the selected digit, a decimal digit 0..9. -/
theorem C18_refresh_cannot_fail (s : State) (hb : InBounds s) (hc : s.currentDigit < 6) :
    s.currentDigit < (digits s).length ∧
    ∃ d : Nat, (digits s)[s.currentDigit]? = some d ∧ d ≤ 9 ∧
      d < digit_to_bcd.length ∧ digit_to_bcd[d]? = some d ∧
      ∃ t : State, TIMER0_COMP_vect s = some t ∧ t.PORTC = d := by
  obtain ⟨d, hd, h9, _⟩ := digits_get s hb hc
  have hv := digit_to_bcd_get d (by omega)
  refine ⟨hc, d, hd, h9, ?_, hv, _, TIMER0_of_reads s d d hd hv, rfl⟩
  show d < 10
  omega

/-- C18 at 23:59:58 with the cursor on the last slot: the refresh drives 8. -/
theorem C18_refresh_cannot_fail_witness :
    ∃ t : State, TIMER0_COMP_vect { State.init with
        hours := 23, minutes := 59, seconds := 58, currentDigit := 5 } = some t ∧
      t.PORTC = 8 :=
  have h := C18_refresh_cannot_fail
    { State.init with hours := 23, minutes := 59, seconds := 58, currentDigit := 5 }
    (by decide) (by decide)
  h.2.elim fun d hd =>
    hd.2.2.2.2.imp fun _ ht =>
      ⟨ht.1, ht.2.trans (Option.some.inj (hd.1.symm.trans (by decide)))⟩

/-! ## The display cursor -/

theorem currentDigit_ledIndicator (s : State) :
    (ledIndicator s).currentDigit = s.currentDigit := by
  unfold ledIndicator
  split_ifs <;> rfl

theorem currentDigit_handleTick (s : State) :
    (handleTick s).currentDigit = s.currentDigit := by
  simp only [handleTick, tickBody, countUp, countDown]
  split_ifs <;> rfl

theorem currentDigit_pollButton (b : Button) (pinb : Nat) (s : State) :
    (pollButton b pinb s).currentDigit = s.currentDigit := by
  cases b <;>
    simp only [pollButton, stopwatch_toggle_mode, Hour_Inc, Hour_Dec, Min_Inc, Min_Dec,
      Sec_Inc, Sec_Dec] <;>
    split_ifs <;> rfl

theorem currentDigit_mainLoop (pins : Button → Nat) (s : State) :
    (mainLoop pins s).currentDigit = s.currentDigit := by
  simp only [mainLoop, currentDigit_pollButton, currentDigit_handleTick,
    currentDigit_ledIndicator]

theorem currentDigit_step (e : Event) (s t : State) (hs : step e s = some t)
    (he : e ≠ Event.refresh) : t.currentDigit = s.currentDigit := by
  cases e <;> simp only [step, Option.some.injEq] at hs
  · subst hs; rfl
  · exact absurd rfl he
  · subst hs; rfl
  · subst hs; rfl
  · subst hs; rfl
  · subst hs; exact currentDigit_mainLoop _ s

theorem currentDigit_TIMER0 (s t : State) (hc : s.currentDigit < 6)
    (h : TIMER0_COMP_vect s = some t) : t.currentDigit = (s.currentDigit + 1) % 6 := by
  obtain ⟨d, v, _, _, rfl⟩ := TIMER0_reads s t h
  exact cursor_next _ hc

theorem cursor_of_reachable (s : State) (h : Reachable s) : s.currentDigit < 6 := by
  induction h with
  | init => decide
  | next e s t _ hs ih =>
    by_cases he : e = Event.refresh
    · subst he
      rw [currentDigit_TIMER0 s t ih hs]
      omega
    · rw [currentDigit_step e s t hs he]
      exact ih

theorem slot_shift (c i : Nat) : ((c + 1) % 6 + i) % 6 = (c + (i + 1)) % 6 := by
  omega

theorem refreshRun_ok (n : Nat) :
    ∀ s : State, InBounds s → s.currentDigit < 6 →
      ∃ u : State,
        refreshRun n s = some
          ((List.range n).map (fun i =>
            (2 ^ ((s.currentDigit + i) % 6),
             (digits s).getD ((s.currentDigit + i) % 6) 0)), u) ∧
        u.currentDigit = (s.currentDigit + n) % 6 ∧ clock u = clock s := by
  induction n with
  | zero =>
    intro s _ hc
    exact ⟨s, rfl, (Nat.mod_eq_of_lt hc).symm, rfl⟩
  | succ n ih =>
    intro s hb hc
    have hlt : (s.currentDigit + 1) % 6 < 6 := Nat.mod_lt _ (by decide)
    obtain ⟨u, hu, hcd, hck⟩ := ih { s with
      PORTA := 2 ^ s.currentDigit
      PORTC := (digits s).getD s.currentDigit 0
      currentDigit := (s.currentDigit + 1) % 6 } hb hlt
    refine ⟨u, ?_, ?_, hck⟩
    · simp only [refreshRun, TIMER0_ok s hb hc, hu]
      simp only [List.range_succ_eq_map, List.map_cons, List.map_map, Nat.add_zero,
        Nat.mod_eq_of_lt hc, Option.some.injEq, Prod.mk.injEq, List.cons.injEq, true_and,
        and_true]
      refine List.map_congr_left fun i _ => ?_
      simp only [Function.comp_apply, Nat.succ_eq_add_one, slot_shift]
      rfl
    · rw [hcd]
      show ((s.currentDigit + 1) % 6 + n) % 6 = (s.currentDigit + (n + 1)) % 6
      omega

theorem slots_perm (c : Nat) (hc : c < 6) :
    ((List.range 6).map (fun i => (c + i) % 6)).Perm (List.range 6) := by
  interval_cases c <;> decide

/-- C14: for an in-bounds time and a starting cursor c in [0,6), six refresh
invocations in a row complete; the i-th one (i = 0..5) enables slot
(c + i) mod 6 alone and drives element (c + i) mod 6 of
[hours/10, hours%10, minutes/10, minutes%10, seconds/10, seconds%10] on the
value port, so every slot 0..5 is enabled exactly once, in cyclic order from c;
the six digits reproduce the time, the time is untouched and the cursor is back
at c. -/
theorem C14_full_refresh_cycle (s : State) (hb : InBounds s) (hc : s.currentDigit < 6) :
    ∃ u : State,
      refreshRun 6 s = some
        ((List.range 6).map (fun i =>
          (2 ^ ((s.currentDigit + i) % 6),
           (digits s).getD ((s.currentDigit + i) % 6) 0)), u) ∧
      ((List.range 6).map (fun i => (s.currentDigit + i) % 6)).Perm (List.range 6) ∧
      digits s = [s.hours / 10, s.hours % 10, s.minutes / 10, s.minutes % 10,
        s.seconds / 10, s.seconds % 10] ∧
      10 * (digits s).getD 0 0 + (digits s).getD 1 0 = s.hours ∧
      10 * (digits s).getD 2 0 + (digits s).getD 3 0 = s.minutes ∧
      10 * (digits s).getD 4 0 + (digits s).getD 5 0 = s.seconds ∧
      clock u = clock s ∧
      u.currentDigit = s.currentDigit := by
  obtain ⟨u, hu, hcd, hck⟩ := refreshRun_ok 6 s hb hc
  refine ⟨u, hu, slots_perm _ hc, rfl, ?_, ?_, ?_, hck, ?_⟩
  · show 10 * (s.hours / 10) + s.hours % 10 = s.hours
    omega
  · show 10 * (s.minutes / 10) + s.minutes % 10 = s.minutes
    omega
  · show 10 * (s.seconds / 10) + s.seconds % 10 = s.seconds
    omega
  · rw [hcd]
    omega

/-- C14 at 12:34:56 with the cursor on slot 4: the six refreshes enable slots
4, 5, 0, 1, 2, 3 and drive 5, 6, 1, 2, 3, 4. -/
theorem C14_full_refresh_cycle_witness :
    ∃ u : State,
      refreshRun 6 { State.init with
          hours := 12, minutes := 34, seconds := 56, currentDigit := 4 }
        = some ([(16, 5), (32, 6), (1, 1), (2, 2), (4, 3), (8, 4)], u) ∧
      u.currentDigit = 4 :=
  (C14_full_refresh_cycle
    { State.init with hours := 12, minutes := 34, seconds := 56, currentDigit := 4 }
    (by decide) (by decide)).imp fun _ h => ⟨h.1, h.2.2.2.2.2.2.2⟩

/-! ## The mode indicators -/

theorem led_up_bits (p i : Nat) :
    (clearBit8 (setBit8 p PD4) PD5).testBit i
      = (decide (i < 8) && !decide (i = 5) && (p.testBit i || decide (i = 4))) := by
  simp only [testBit_clearBit8, testBit_setBit8, PD4, PD5]
  rcases Bool.eq_false_or_eq_true (p.testBit i) with hp | hp <;>
    by_cases h8 : i < 8 <;> by_cases h4 : i = 4 <;> by_cases h5 : i = 5 <;>
    simp [hp, h8, h4, h5, eq_comm]

theorem led_down_bits (p i : Nat) :
    (clearBit8 (setBit8 p PD5) PD4).testBit i
      = (decide (i < 8) && !decide (i = 4) && (p.testBit i || decide (i = 5))) := by
  simp only [testBit_clearBit8, testBit_setBit8, PD4, PD5]
  rcases Bool.eq_false_or_eq_true (p.testBit i) with hp | hp <;>
    by_cases h8 : i < 8 <;> by_cases h4 : i = 4 <;> by_cases h5 : i = 5 <;>
    simp [hp, h8, h4, h5, eq_comm]

theorem led_up_idem (p : Nat) :
    clearBit8 (setBit8 (clearBit8 (setBit8 p PD4) PD5) PD4) PD5
      = clearBit8 (setBit8 p PD4) PD5 := by
  apply Nat.eq_of_testBit_eq
  intro i
  rw [led_up_bits, led_up_bits]
  rcases Bool.eq_false_or_eq_true (p.testBit i) with hp | hp <;>
    by_cases h8 : i < 8 <;> by_cases h4 : i = 4 <;> by_cases h5 : i = 5 <;>
    simp [hp, h8, h4, h5]

theorem led_down_idem (p : Nat) :
    clearBit8 (setBit8 (clearBit8 (setBit8 p PD5) PD4) PD5) PD4
      = clearBit8 (setBit8 p PD5) PD4 := by
  apply Nat.eq_of_testBit_eq
  intro i
  rw [led_down_bits, led_down_bits]
  rcases Bool.eq_false_or_eq_true (p.testBit i) with hp | hp <;>
    by_cases h8 : i < 8 <;> by_cases h4 : i = 4 <;> by_cases h5 : i = 5 <;>
    simp [hp, h8, h4, h5]

theorem ledIndicator_bits (s : State) (i : Nat) :
    (ledIndicator s).PORTD.testBit i
      = if s.countMode = COUNT_UP then
          (decide (i < 8) && !decide (i = 5) && (s.PORTD.testBit i || decide (i = 4)))
        else
          (decide (i < 8) && !decide (i = 4) && (s.PORTD.testBit i || decide (i = 5))) := by
  unfold ledIndicator
  split_ifs
  · exact led_up_bits _ _
  · exact led_down_bits _ _

theorem ledIndicator_idem (s : State) : ledIndicator (ledIndicator s) = ledIndicator s := by
  unfold ledIndicator
  by_cases h : s.countMode = COUNT_UP
  · simp only [h, if_true, led_up_idem]
  · simp only [h, if_false, led_down_idem]

/-- C15: after the indicator-reflection step exactly one of the two mode
indicator bits of PORTD is on: PD4 on and PD5 off when mode = CountUp
(countMode equals COUNT_UP), PD5 on and PD4 off otherwise.  The two bits are
determined by the mode alone, the step applied twice equals the step applied
once, and it changes no other bit of the 8-bit port (the alarm bit PD0
included) and no variable. -/
theorem C15_mode_indicators (s : State) :
    (ledIndicator s).PORTD.testBit PD4 = decide (s.countMode = COUNT_UP) ∧
    (ledIndicator s).PORTD.testBit PD5 = decide (s.countMode ≠ COUNT_UP) ∧
    (∀ r : State, r.countMode = s.countMode →
      (ledIndicator r).PORTD.testBit PD4 = (ledIndicator s).PORTD.testBit PD4 ∧
      (ledIndicator r).PORTD.testBit PD5 = (ledIndicator s).PORTD.testBit PD5) ∧
    ledIndicator (ledIndicator s) = ledIndicator s ∧
    (∀ i : Nat, i < 8 → i ≠ PD4 → i ≠ PD5 →
      (ledIndicator s).PORTD.testBit i = s.PORTD.testBit i) ∧
    alarm (ledIndicator s) = alarm s ∧
    ledIndicator s = { s with PORTD := (ledIndicator s).PORTD } := by
  have b4 : ∀ r : State,
      (ledIndicator r).PORTD.testBit PD4 = decide (r.countMode = COUNT_UP) := by
    intro r
    rw [ledIndicator_bits]
    split_ifs with h <;> simp [PD4, h]
  have b5 : ∀ r : State,
      (ledIndicator r).PORTD.testBit PD5 = decide (r.countMode ≠ COUNT_UP) := by
    intro r
    rw [ledIndicator_bits]
    split_ifs with h <;> simp [PD5, h]
  refine ⟨b4 s, b5 s, fun r hr => ?_, ledIndicator_idem s, fun i h8 h4 h5 => ?_,
    alarm_ledIndicator s, ?_⟩
  · rw [b4 r, b5 r, b4 s, b5 s, hr]
    exact ⟨rfl, rfl⟩
  · simp only [PD4, PD5] at h4 h5
    rw [ledIndicator_bits]
    split_ifs <;> simp [h8, h4, h5]
  · unfold ledIndicator
    split_ifs <;> rfl

/-- C15 at the halted countdown (counting down, alarm on): the countdown
indicator is on, the count-up indicator off, the alarm bit is kept, and a
different state with the same mode gets the same two indicator bits. -/
theorem C15_mode_indicators_witness :
    (ledIndicator haltedState).PORTD.testBit PD5 = true ∧
    (ledIndicator haltedState).PORTD.testBit PD4 = false ∧
    alarm (ledIndicator haltedState) = true ∧
    (ledIndicator { State.init with countMode := COUNT_DOWN, PORTD := 16 }).PORTD.testBit PD4
      = (ledIndicator haltedState).PORTD.testBit PD4 :=
  have h := C15_mode_indicators haltedState
  ⟨h.2.1.trans (by decide), h.1.trans (by decide), h.2.2.2.2.2.1.trans (by decide),
   (h.2.2.1 { State.init with countMode := COUNT_DOWN, PORTD := 16 } (by decide)).1⟩

/-! ## The alarm is asserted only by a tick at zero -/

theorem alarm_rise_handleTick (s : State) (h0 : alarm s = false)
    (h1 : alarm (handleTick s) = true) :
    s.tick ≠ 0 ∧ s.running ≠ 0 ∧ s.countMode ≠ COUNT_UP ∧
    s.hours = 0 ∧ s.minutes = 0 ∧ s.seconds = 0 := by
  have hne : (handleTick s).PORTD ≠ s.PORTD := by
    intro e
    simp only [alarm, e] at h1
    simp only [alarm] at h0
    rw [h0] at h1
    exact Bool.noConfusion h1
  by_cases ht : s.tick = 0
  · exact absurd (by simp [handleTick, ht]) hne
  by_cases hr : s.running = 0
  · exact absurd (by rw [handleTick_paused s hr]) hne
  by_cases hm : s.countMode = COUNT_UP
  · exact absurd (by rw [handleTick_countUp s ht hr hm]; exact (countUp_frame s).2.2.1) hne
  by_cases hz : s.hours = 0 ∧ s.minutes = 0 ∧ s.seconds = 0
  · exact ⟨ht, hr, hm, hz.1, hz.2.1, hz.2.2⟩
  · exact absurd (by rw [handleTick_countDown s ht hr hm]; exact (countDown_frame s hz).2.2) hne

theorem alarm_rise_step (e : Event) (s t : State) (hs : step e s = some t)
    (h0 : alarm s = false) (h1 : alarm t = true) :
    (∃ pins : Button → Nat, e = Event.loop pins) ∧
    s.tick ≠ 0 ∧ s.running ≠ 0 ∧ s.countMode ≠ COUNT_UP ∧
    s.hours = 0 ∧ s.minutes = 0 ∧ s.seconds = 0 := by
  have no : ∀ u : State, u.PORTD = s.PORTD → alarm u = true → False := by
    intro u hu ha
    simp only [alarm, hu] at ha
    simp only [alarm] at h0
    rw [h0] at ha
    exact Bool.noConfusion ha
  cases e <;> simp only [step, Option.some.injEq] at hs
  · subst hs; exact (no _ rfl h1).elim
  · obtain ⟨d, v, _, _, rfl⟩ := TIMER0_reads s t hs
    exact (no _ rfl h1).elim
  · subst hs; exact (no _ rfl h1).elim
  · subst hs; exact (no _ rfl h1).elim
  · subst hs; exact (no _ rfl h1).elim
  · rename_i pins
    subst hs
    have h1' : alarm (handleTick (ledIndicator s)) = true := by
      simpa only [alarm, PORTD_mainLoop] using h1
    obtain ⟨a, b, c, d, e, f⟩ :=
      alarm_rise_handleTick (ledIndicator s) ((alarm_ledIndicator s).trans h0) h1'
    obtain ⟨hck, htk⟩ := clock_ledIndicator s
    simp only [clock, Prod.mk.injEq] at hck
    obtain ⟨e1, e2, e3, e4, e5⟩ := hck
    rw [htk] at a
    rw [e4] at b
    rw [e5] at c
    rw [e1] at d
    rw [e2] at e
    rw [e3] at f
    exact ⟨⟨pins, rfl⟩, a, b, c, d, e, f⟩

theorem PORTD_adjust (s : State) :
    (Hour_Inc s).PORTD = s.PORTD ∧ (Hour_Dec s).PORTD = s.PORTD ∧
    (Min_Inc s).PORTD = s.PORTD ∧ (Min_Dec s).PORTD = s.PORTD ∧
    (Sec_Inc s).PORTD = s.PORTD ∧ (Sec_Dec s).PORTD = s.PORTD := by
  simp only [Hour_Inc, Hour_Dec, Min_Inc, Min_Dec, Sec_Inc, Sec_Dec]
  refine ⟨?_, ?_, ?_, ?_, ?_, ?_⟩ <;> split_ifs <;> rfl

/-- C16: the alarm output becomes asserted only by a tick.  Whenever a
transition of the system takes the alarm from deasserted to asserted, the
transition is a main-loop iteration that processes a pending tick with
running = true, mode = CountDown and the time exactly 00:00:00 (and within the
iteration it is the tick block that does it).  The six adjustment actions, also
when they bring the time to 00:00:00 while counting down, the mode toggle, the
button polling, reset, pause, resume, the one-second interrupt and the display
refresh leave PORTD as it is, and the indicator step leaves the alarm bit as it
is. -/
theorem C16_alarm_only_by_tick :
    (∀ (e : Event) (s t : State), step e s = some t → alarm s = false → alarm t = true →
      (∃ pins : Button → Nat, e = Event.loop pins) ∧
      s.tick ≠ 0 ∧ s.running ≠ 0 ∧ s.countMode ≠ COUNT_UP ∧
      s.hours = 0 ∧ s.minutes = 0 ∧ s.seconds = 0) ∧
    (∀ s : State, alarm s = false → alarm (handleTick s) = true →
      s.tick ≠ 0 ∧ s.running ≠ 0 ∧ s.countMode ≠ COUNT_UP ∧
      s.hours = 0 ∧ s.minutes = 0 ∧ s.seconds = 0) ∧
    (∀ s : State,
      (Hour_Inc s).PORTD = s.PORTD ∧ (Hour_Dec s).PORTD = s.PORTD ∧
      (Min_Inc s).PORTD = s.PORTD ∧ (Min_Dec s).PORTD = s.PORTD ∧
      (Sec_Inc s).PORTD = s.PORTD ∧ (Sec_Dec s).PORTD = s.PORTD ∧
      (stopwatch_toggle_mode s).PORTD = s.PORTD ∧
      (INT0_vect s).PORTD = s.PORTD ∧ (INT1_vect s).PORTD = s.PORTD ∧
      (INT2_vect s).PORTD = s.PORTD ∧ (TIMER1_COMPA_vect s).PORTD = s.PORTD ∧
      alarm (ledIndicator s) = alarm s) ∧
    (∀ (b : Button) (pinb : Nat) (s : State), (pollButton b pinb s).PORTD = s.PORTD) ∧
    (∀ s t : State, TIMER0_COMP_vect s = some t → t.PORTD = s.PORTD) := by
  refine ⟨alarm_rise_step, alarm_rise_handleTick, fun s => ?_, PORTD_pollButton, ?_⟩
  · obtain ⟨a, b, c, d, e, f⟩ := PORTD_adjust s
    exact ⟨a, b, c, d, e, f, rfl, rfl, rfl, rfl, rfl, alarm_ledIndicator s⟩
  · intro s t h
    obtain ⟨d, v, _, _, rfl⟩ := TIMER0_reads s t h
    rfl

/-- C16 on two concrete transitions.  Counting down at 00:00:01 with the alarm
off, pressing the seconds-decrement button (PB5 reads 0) in a main-loop
iteration brings the time to 00:00:00 and the alarm stays off; the iteration
that turned the alarm on in `haltedState` processed a pending tick at 00:00:00
while running and counting down. -/
theorem C16_alarm_only_by_tick_witness :
    totalSeconds (pollButton Button.secDec 223
      { State.init with seconds := 1, countMode := COUNT_DOWN }) = 0 ∧
    alarm (pollButton Button.secDec 223
      { State.init with seconds := 1, countMode := COUNT_DOWN }) = false ∧
    (TIMER1_COMPA_vect (mainLoop (fun _ => 127) State.init)).tick ≠ 0 ∧
    (TIMER1_COMPA_vect (mainLoop (fun _ => 127) State.init)).countMode ≠ COUNT_UP :=
  have h := C16_alarm_only_by_tick.1 (Event.loop (fun _ => 255))
    (TIMER1_COMPA_vect (mainLoop (fun _ => 127) State.init)) haltedState rfl
    (by decide) (by decide)
  ⟨by decide,
   (congrArg (fun p : Nat => p.testBit PD0)
      (C16_alarm_only_by_tick.2.2.2.1 Button.secDec 223
        { State.init with seconds := 1, countMode := COUNT_DOWN })).trans (by decide),
   h.2.1, h.2.2.2.1⟩

/-! ## The countdown reaches zero on time -/

theorem countdown_run (s : State) (hb : InBounds s) (hr : s.running ≠ 0)
    (hm : s.countMode ≠ COUNT_UP) (k : Nat) (hk : k ≤ totalSeconds s) :
    InBounds ((fun t => handleTick (TIMER1_COMPA_vect t))^[k] s) ∧
    totalSeconds ((fun t => handleTick (TIMER1_COMPA_vect t))^[k] s) + k = totalSeconds s ∧
    ((fun t => handleTick (TIMER1_COMPA_vect t))^[k] s).running = s.running ∧
    ((fun t => handleTick (TIMER1_COMPA_vect t))^[k] s).countMode = s.countMode ∧
    ((fun t => handleTick (TIMER1_COMPA_vect t))^[k] s).PORTD = s.PORTD := by
  induction k with
  | zero => exact ⟨hb, rfl, rfl, rfl, rfl⟩
  | succ k ih =>
    obtain ⟨ib, it, ir, im, ip⟩ := ih (by omega)
    rw [Function.iterate_succ_apply']
    generalize (fun t => handleTick (TIMER1_COMPA_vect t))^[k] s = u at ib it ir im ip ⊢
    have hu : InBounds (TIMER1_COMPA_vect u) := ib
    have ht : (TIMER1_COMPA_vect u).tick ≠ 0 := Nat.one_ne_zero
    have hru : (TIMER1_COMPA_vect u).running ≠ 0 := by
      show u.running ≠ 0
      rw [ir]; exact hr
    have hmu : (TIMER1_COMPA_vect u).countMode ≠ COUNT_UP := by
      show u.countMode ≠ COUNT_UP
      rw [im]; exact hm
    have hz : ¬((TIMER1_COMPA_vect u).hours = 0 ∧ (TIMER1_COMPA_vect u).minutes = 0 ∧
        (TIMER1_COMPA_vect u).seconds = 0) := by
      intro hz
      obtain ⟨z1, z2, z3⟩ := hz
      have z1' : u.hours = 0 := z1
      have z2' : u.minutes = 0 := z2
      have z3' : u.seconds = 0 := z3
      simp only [totalSeconds, z1', z2', z3'] at it
      simp only [totalSeconds] at hk
      omega
    have htot := countDown_total _ hu hz
    obtain ⟨f1, f2, f3⟩ := countDown_frame (TIMER1_COMPA_vect u) hz
    rw [handleTick_countDown _ ht hru hmu]
    refine ⟨inBounds_countDown _ hu, ?_, f1.trans ir, f2.trans im, f3.trans ip⟩
    have e : totalSeconds (TIMER1_COMPA_vect u) = totalSeconds u := rfl
    have e2 : totalSeconds { countDown (TIMER1_COMPA_vect u) with tick := 0 }
        = totalSeconds (countDown (TIMER1_COMPA_vect u)) := rfl
    rw [e2]
    omega

theorem zero_of_total (s : State) (h : totalSeconds s = 0) :
    s.hours = 0 ∧ s.minutes = 0 ∧ s.seconds = 0 := by
  simp only [totalSeconds] at h
  omega

/-- C19: for an in-bounds start time of T seconds in total, counting down,
running, alarm off, with nothing happening but ticks (each a one-second
interrupt followed by the tick handling): after k ticks, k up to T, the time is
in bounds and is T - k seconds, the clock still runs and the alarm is still
off; after exactly T ticks the time is 00:00:00, still running, alarm off; the
tick after that asserts the alarm and sets running to false, with the time
still 00:00:00. -/
theorem C19_countdown_reaches_zero (s : State) (hb : InBounds s) (hr : s.running ≠ 0)
    (hm : s.countMode ≠ COUNT_UP) (ha : alarm s = false) :
    (∀ k : Nat, k ≤ totalSeconds s →
      InBounds ((fun t => handleTick (TIMER1_COMPA_vect t))^[k] s) ∧
      totalSeconds ((fun t => handleTick (TIMER1_COMPA_vect t))^[k] s) + k
        = totalSeconds s ∧
      ((fun t => handleTick (TIMER1_COMPA_vect t))^[k] s).running ≠ 0 ∧
      alarm ((fun t => handleTick (TIMER1_COMPA_vect t))^[k] s) = false) ∧
    (((fun t => handleTick (TIMER1_COMPA_vect t))^[totalSeconds s] s).hours = 0 ∧
      ((fun t => handleTick (TIMER1_COMPA_vect t))^[totalSeconds s] s).minutes = 0 ∧
      ((fun t => handleTick (TIMER1_COMPA_vect t))^[totalSeconds s] s).seconds = 0 ∧
      ((fun t => handleTick (TIMER1_COMPA_vect t))^[totalSeconds s] s).running ≠ 0 ∧
      alarm ((fun t => handleTick (TIMER1_COMPA_vect t))^[totalSeconds s] s) = false) ∧
    (alarm ((fun t => handleTick (TIMER1_COMPA_vect t))^[totalSeconds s + 1] s) = true ∧
      ((fun t => handleTick (TIMER1_COMPA_vect t))^[totalSeconds s + 1] s).running = 0 ∧
      ((fun t => handleTick (TIMER1_COMPA_vect t))^[totalSeconds s + 1] s).hours = 0 ∧
      ((fun t => handleTick (TIMER1_COMPA_vect t))^[totalSeconds s + 1] s).minutes = 0 ∧
      ((fun t => handleTick (TIMER1_COMPA_vect t))^[totalSeconds s + 1] s).seconds = 0) := by
  have run : ∀ k : Nat, k ≤ totalSeconds s →
      InBounds ((fun t => handleTick (TIMER1_COMPA_vect t))^[k] s) ∧
      totalSeconds ((fun t => handleTick (TIMER1_COMPA_vect t))^[k] s) + k
        = totalSeconds s ∧
      ((fun t => handleTick (TIMER1_COMPA_vect t))^[k] s).running ≠ 0 ∧
      alarm ((fun t => handleTick (TIMER1_COMPA_vect t))^[k] s) = false := by
    intro k hk
    obtain ⟨ib, it, ir, _, ip⟩ := countdown_run s hb hr hm k hk
    refine ⟨ib, it, by rw [ir]; exact hr, ?_⟩
    simp only [alarm, ip]
    exact ha
  obtain ⟨_, it, ir, im, ip⟩ := countdown_run s hb hr hm (totalSeconds s) (le_refl _)
  obtain ⟨_, _, rr, ra⟩ := run (totalSeconds s) (le_refl _)
  have hz := zero_of_total _ (by omega :
    totalSeconds ((fun t => handleTick (TIMER1_COMPA_vect t))^[totalSeconds s] s) = 0)
  refine ⟨run, ⟨hz.1, hz.2.1, hz.2.2, rr, ra⟩, ?_⟩
  rw [Function.iterate_succ_apply']
  generalize (fun t => handleTick (TIMER1_COMPA_vect t))^[totalSeconds s] s = u
    at it ir im ip rr ra hz ⊢
  have hmu : (TIMER1_COMPA_vect u).countMode ≠ COUNT_UP := by
    show u.countMode ≠ COUNT_UP
    rw [im]; exact hm
  rw [handleTick_at_zero (TIMER1_COMPA_vect u) Nat.one_ne_zero rr hmu hz.1 hz.2.1 hz.2.2]
  refine ⟨?_, rfl, hz.1, hz.2.1, hz.2.2⟩
  simp only [alarm, testBit_setBit8]
  simp [PD0]

/-- C19 from 00:01:05 (65 seconds), counting down: after 65 ticks the time is
00:00:00 with the clock running and the alarm off, and the 66th tick turns the
alarm on and stops the clock. -/
theorem C19_countdown_reaches_zero_witness :
    totalSeconds { State.init with minutes := 1, seconds := 5, countMode := COUNT_DOWN }
      = 65 ∧
    ((fun t => handleTick (TIMER1_COMPA_vect t))^[65]
      { State.init with minutes := 1, seconds := 5, countMode := COUNT_DOWN }).seconds = 0 ∧
    alarm ((fun t => handleTick (TIMER1_COMPA_vect t))^[66]
      { State.init with minutes := 1, seconds := 5, countMode := COUNT_DOWN }) = true :=
  have h := C19_countdown_reaches_zero
    { State.init with minutes := 1, seconds := 5, countMode := COUNT_DOWN }
    (by decide) (by decide) (by decide) (by decide)
  ⟨rfl, h.2.1.2.2.1, h.2.2.1⟩

/-! ## The access-level loop agrees with the blocks when nothing interrupts -/

theorem execProg_rd (f : State → Nat) (k : Nat → Prog) (s : State) :
    execProg (Prog.rd f k) [] s = execProg (k (f s)) [] s := rfl

theorem execProg_wr (u : State → State) (k : Prog) (s : State) :
    execProg (Prog.wr u k) [] s = execProg k [] (u s) := rfl

theorem exec_ledIndicatorP (k : Prog) (s : State) :
    execProg (ledIndicatorP k) [] s = execProg k [] (ledIndicator s) := by
  simp only [ledIndicatorP, ledIndicator, execProg_rd]
  split_ifs <;> rfl

theorem exec_countUpP (k : Prog) (s : State) :
    execProg (countUpP k) [] s = execProg k [] (countUp s) := by
  by_cases c1 : MAX_SECONDS ≤ inc8 s.seconds <;>
    by_cases c2 : MAX_MINUTES ≤ inc8 s.minutes <;>
    by_cases c3 : MAX_MINUTES ≤ s.minutes <;>
    by_cases c4 : MAX_HOURS ≤ inc8 s.hours <;>
    by_cases c5 : MAX_HOURS ≤ s.hours <;>
    simp [countUpP, countUp, execProg_rd, execProg_wr, c1, c2, c3, c4, c5]

theorem exec_countDownP (k : Prog) (s : State) :
    execProg (countDownP k) [] s = execProg k [] (countDown s) := by
  simp only [countDownP, countDown, execProg_rd, execProg_wr]
  by_cases h : s.hours = 0 <;> by_cases m : s.minutes = 0 <;> by_cases x : s.seconds = 0 <;>
    simp [h, m, x, execProg_rd, execProg_wr, Nat.pos_iff_ne_zero]

theorem exec_handleTickP (k : Prog) (s : State) :
    execProg (handleTickP k) [] s = execProg k [] (handleTick s) := by
  by_cases ht : s.tick = 0 <;> by_cases hr : s.running = 0 <;>
    by_cases hm : s.countMode = COUNT_UP <;>
    simp [handleTickP, handleTick, tickBody, execProg_rd, execProg_wr, exec_countUpP,
      exec_countDownP, ht, hr, hm]

theorem exec_Hour_IncP (k : Prog) (s : State) :
    execProg (Hour_IncP k) [] s = execProg k [] (Hour_Inc s) := by
  by_cases f : s.hour_inc_flag = 0 <;> by_cases c : MAX_HOURS ≤ inc8 s.hours <;>
    simp [Hour_IncP, Hour_Inc, execProg_rd, execProg_wr, f, c]

theorem exec_Hour_DecP (k : Prog) (s : State) :
    execProg (Hour_DecP k) [] s = execProg k [] (Hour_Dec s) := by
  by_cases f : s.hour_dec_flag = 0 <;> by_cases c : s.hours = 0 <;>
    simp [Hour_DecP, Hour_Dec, execProg_rd, execProg_wr, f, c, Nat.pos_iff_ne_zero]

theorem exec_Min_IncP (k : Prog) (s : State) :
    execProg (Min_IncP k) [] s = execProg k [] (Min_Inc s) := by
  by_cases f : s.min_inc_flag = 0 <;> by_cases c : MAX_MINUTES ≤ inc8 s.minutes <;>
    simp [Min_IncP, Min_Inc, execProg_rd, execProg_wr, f, c]

theorem exec_Min_DecP (k : Prog) (s : State) :
    execProg (Min_DecP k) [] s = execProg k [] (Min_Dec s) := by
  by_cases f : s.min_dec_flag = 0 <;> by_cases c : s.minutes = 0 <;>
    simp [Min_DecP, Min_Dec, execProg_rd, execProg_wr, f, c, Nat.pos_iff_ne_zero]

theorem exec_Sec_IncP (k : Prog) (s : State) :
    execProg (Sec_IncP k) [] s = execProg k [] (Sec_Inc s) := by
  by_cases f : s.sec_inc_flag = 0 <;> by_cases c : MAX_SECONDS ≤ inc8 s.seconds <;>
    simp [Sec_IncP, Sec_Inc, execProg_rd, execProg_wr, f, c]

theorem exec_Sec_DecP (k : Prog) (s : State) :
    execProg (Sec_DecP k) [] s = execProg k [] (Sec_Dec s) := by
  by_cases f : s.sec_dec_flag = 0 <;> by_cases c : s.seconds = 0 <;>
    simp [Sec_DecP, Sec_Dec, execProg_rd, execProg_wr, f, c, Nat.pos_iff_ne_zero]

theorem exec_pollButtonP (b : Button) (pinb : Nat) (k : Prog) (s : State) :
    execProg (pollButtonP b pinb k) [] s = execProg k [] (pollButton b pinb s) := by
  cases b <;> simp only [pollButtonP, pollButton, execProg_rd] <;> split_ifs <;>
    simp [execProg_rd, execProg_wr, stopwatch_toggle_modeP, stopwatch_toggle_mode,
      exec_Hour_IncP, exec_Hour_DecP, exec_Min_IncP, exec_Min_DecP, exec_Sec_IncP,
      exec_Sec_DecP, *]

theorem exec_mainProg (pins : Button → Nat) (s : State) :
    execProg (mainProg pins) [] s = some (mainLoop pins s) := by
  simp only [mainProg, mainLoop, exec_ledIndicatorP, exec_handleTickP, exec_pollButtonP]
  rfl

/-! ## Reachable configurations with interrupts enabled -/

theorem mreachable_serve (p : Prog) (is : List Irq) :
    ∀ s t : State, MReachable p s → serve is s = some t → MReachable p t := by
  induction is with
  | nil =>
    intro s t h e
    simp only [serve, Option.some.injEq] at e
    subst e
    exact h
  | cons i is ih =>
    intro s t h e
    simp only [serve] at e
    split at e
    · exact absurd e (by simp)
    · rename_i u hu
      exact ih u t (MReachable.next p p s u (Move.irq i) h (MStep.irq i p s u hu)) e

theorem mreachable_exec (p : Prog) :
    ∀ (sched : List (List Irq)) (s t : State),
      MReachable p s → execProg p sched s = some t → MReachable Prog.done t := by
  induction p with
  | done =>
    intro sched s t h e
    simp only [execProg, Option.some.injEq] at e
    subst e
    exact h
  | rd f k ih =>
    intro sched s t h e
    simp only [execProg] at e
    split at e
    · exact absurd e (by simp)
    · rename_i u hu
      have hu' := mreachable_serve _ _ s u h hu
      exact ih (f u) _ u t
        (MReachable.next _ _ u u Move.access hu' (MStep.rd f k u)) e
  | wr w k ih =>
    intro sched s t h e
    simp only [execProg] at e
    split at e
    · exact absurd e (by simp)
    · rename_i u hu
      have hu' := mreachable_serve _ _ s u h hu
      exact ih _ (w u) t
        (MReachable.next _ _ u (w u) Move.access hu' (MStep.wr w k u)) e

theorem reachable_micro (s : State) (h : Reachable s) :
    ∀ pins : Button → Nat, MReachable (mainProg pins) s := by
  induction h with
  | init => exact MReachable.init
  | next e s t _ hs ih =>
    intro pins
    cases e <;> simp only [step] at hs
    · exact MReachable.next _ _ s t (Move.irq Irq.second) (ih pins)
        (MStep.irq Irq.second _ s t hs)
    · exact MReachable.next _ _ s t (Move.irq Irq.refresh) (ih pins)
        (MStep.irq Irq.refresh _ s t hs)
    · exact MReachable.next _ _ s t (Move.irq Irq.reset) (ih pins)
        (MStep.irq Irq.reset _ s t hs)
    · exact MReachable.next _ _ s t (Move.irq Irq.pause) (ih pins)
        (MStep.irq Irq.pause _ s t hs)
    · exact MReachable.next _ _ s t (Move.irq Irq.resume) (ih pins)
        (MStep.irq Irq.resume _ s t hs)
    · rename_i qs
      simp only [Option.some.injEq] at hs
      subst hs
      exact MReachable.next _ _ _ _ Move.again
        (mreachable_exec _ [] s _ (ih qs) (exec_mainProg qs s)) (MStep.again pins _)

theorem reachable_racePre : Reachable racePre :=
  Reachable.next Event.second _ _
    (Reachable.next (Event.loop (fun _ => 63)) _ _ Reachable.init rfl) rfl

/-! ## What the loop body never writes -/

theorem keeps_ite (g : State → Nat) (c : Prop) [Decidable c] (a b : Prog) :
    (if c then a else b).Keeps g ↔ (c → a.Keeps g) ∧ (¬c → b.Keeps g) := by
  split_ifs with h <;> simp [h]

theorem keeps_ledIndicatorP (k : Prog) (h : k.Keeps (fun s => s.currentDigit)) :
    (ledIndicatorP k).Keeps (fun s => s.currentDigit) := by
  simp [ledIndicatorP, Prog.Keeps, keeps_ite, h]

theorem keeps_countUpP (k : Prog) (h : k.Keeps (fun s => s.currentDigit)) :
    (countUpP k).Keeps (fun s => s.currentDigit) := by
  simp [countUpP, Prog.Keeps, keeps_ite, h]

theorem keeps_countDownP (k : Prog) (h : k.Keeps (fun s => s.currentDigit)) :
    (countDownP k).Keeps (fun s => s.currentDigit) := by
  simp [countDownP, Prog.Keeps, keeps_ite, h]

theorem keeps_handleTickP (k : Prog) (h : k.Keeps (fun s => s.currentDigit)) :
    (handleTickP k).Keeps (fun s => s.currentDigit) := by
  simp [handleTickP, countUpP, countDownP, Prog.Keeps, keeps_ite, h]

theorem keeps_pollButtonP (b : Button) (pinb : Nat) (k : Prog)
    (h : k.Keeps (fun s => s.currentDigit)) :
    (pollButtonP b pinb k).Keeps (fun s => s.currentDigit) := by
  cases b <;>
    simp [pollButtonP, stopwatch_toggle_modeP, Hour_IncP, Hour_DecP, Min_IncP, Min_DecP,
      Sec_IncP, Sec_DecP, Prog.Keeps, keeps_ite, h]

theorem keeps_mainProg (pins : Button → Nat) :
    (mainProg pins).Keeps (fun s => s.currentDigit) := by
  unfold mainProg
  apply keeps_ledIndicatorP
  apply keeps_handleTickP
  repeat apply keeps_pollButtonP
  exact True.intro

theorem currentDigit_handler (i : Irq) (s t : State) (h : i.handler s = some t)
    (hi : i ≠ Irq.refresh) : t.currentDigit = s.currentDigit := by
  cases i <;> simp only [Irq.handler, Option.some.injEq] at h
  · subst h; rfl
  · exact absurd rfl hi
  · subst h; rfl
  · subst h; rfl
  · subst h; rfl

theorem cursor_micro (p : Prog) (s : State) (h : MReachable p s) :
    p.Keeps (fun s => s.currentDigit) ∧ s.currentDigit < 6 := by
  induction h with
  | init pins => exact ⟨keeps_mainProg pins, by decide⟩
  | next p q s t m _ hm ih =>
    obtain ⟨hk, hc⟩ := ih
    cases hm with
    | irq i _ _ _ hi =>
      refine ⟨hk, ?_⟩
      by_cases hr : i = Irq.refresh
      · subst hr
        rw [currentDigit_TIMER0 s t hc hi]
        omega
      · rw [currentDigit_handler i s t hi hr]
        exact hc
    | rd f k _ => exact ⟨hk (f s), hc⟩
    | wr u k _ =>
      have e : (u s).currentDigit = s.currentDigit := hk.1 s
      exact ⟨hk.2, by rw [e]; exact hc⟩
    | again pins _ => exact ⟨keeps_mainProg pins, hc⟩

theorem cursor_move (p q : Prog) (s t : State) (m : Move) (h : MReachable p s)
    (hm : MStep p s m q t) (hr : m ≠ Move.irq Irq.refresh) :
    t.currentDigit = s.currentDigit := by
  obtain ⟨hk, _⟩ := cursor_micro p s h
  cases hm with
  | irq i _ _ _ hi =>
    exact currentDigit_handler i s t hi (fun c => hr (by rw [c]))
  | rd f k _ => rfl
  | wr u k _ => exact hk.1 s
  | again pins _ => rfl

theorem reachable_racePreHour : Reachable racePreHour :=
  Reachable.next (Event.loop (fun _ => 253)) _ _ Reachable.init rfl

/-! ## The reset interrupt inside a test-then-decrement -/

/-- C1 fails on the code.  Counting down at 00:00:01 with a tick pending (a
state reached from the initial state, in bounds), the main loop reads seconds
for the test on line 187 and finds 1; the reset interrupt then sets the time to
00:00:00; `seconds--` on line 199 reads 0 and stores 255.  The iteration ends
with seconds = 255, a reachable configuration of the program outside the
bounds.  The same happens to hours in `Hour_Dec`, between the test `hours>0`
and `hours--` on line 115, from 01:00:00.  Without the interrupt both
iterations end in bounds. -/
theorem C1_reset_race_breaks_bounds :
    (Reachable racePre ∧ InBounds racePre ∧ clock racePre = (0, 0, 1, 1, COUNT_DOWN) ∧
      racePre.tick = 1) ∧
    (∃ t : State, execProg (mainProg (fun _ => 63)) raceSchedule racePre = some t ∧
      MReachable Prog.done t ∧ t.seconds = 255 ∧ ¬ InBounds t) ∧
    (∃ t : State, execProg (mainProg (fun _ => 63)) [] racePre = some t ∧ InBounds t) ∧
    (Reachable racePreHour ∧ InBounds racePreHour ∧ racePreHour.hours = 1) ∧
    (∃ t : State, execProg (mainProg (fun _ => 254)) raceScheduleHour racePreHour = some t ∧
      MReachable Prog.done t ∧ t.hours = 255 ∧ ¬ InBounds t) ∧
    (∃ t : State, execProg (mainProg (fun _ => 254)) [] racePreHour = some t ∧
      InBounds t) := by
  have e1 : execProg (mainProg (fun _ => 63)) raceSchedule racePre
      = some { racePre with seconds := 255, tick := 0, PORTD := 32 } := by decide
  have e2 : execProg (mainProg (fun _ => 254)) raceScheduleHour racePreHour
      = some { racePreHour with
          hours := 255, hour_inc_flag := 0, hour_dec_flag := 1,
          fired := [Button.hourDec, Button.hourInc] } := by decide
  refine ⟨⟨reachable_racePre, by decide, by decide, rfl⟩, ⟨_, e1, ?_, rfl, by decide⟩,
    ⟨_, exec_mainProg _ _, by decide⟩,
    ⟨reachable_racePreHour, by decide, rfl⟩, ⟨_, e2, ?_, rfl, by decide⟩,
    ⟨_, exec_mainProg _ _, by decide⟩⟩
  · exact mreachable_exec _ _ _ _ (reachable_micro _ reachable_racePre _) e1
  · exact mreachable_exec _ _ _ _ (reachable_micro _ reachable_racePreHour _) e2

/-! ## The display cursor with interrupts enabled -/

/-- C17: the display cursor starts at 0 and is below 6 in every configuration
the program reaches with interrupts enabled, whatever the time fields hold.  A
refresh invocation that completes maps a cursor c in [0,6) to (c + 1) mod 6,
and on an in-bounds time it completes.  No other move of the system changes the
cursor: no other interrupt handler, no read or write of the main loop, not the
jump back to the top of the loop; nor does a whole loop iteration.  So n
successive refreshes enable the slots c, c+1, ... modulo 6 in order and leave
the cursor at (c + n) mod 6. -/
theorem C17_cursor_cycles :
    State.init.currentDigit = 0 ∧
    (∀ (p : Prog) (s : State), MReachable p s → s.currentDigit < 6) ∧
    (∀ s t : State, s.currentDigit < 6 → TIMER0_COMP_vect s = some t →
      t.currentDigit = (s.currentDigit + 1) % 6) ∧
    (∀ s : State, InBounds s → s.currentDigit < 6 →
      ∃ t : State, TIMER0_COMP_vect s = some t ∧
        t.currentDigit = (s.currentDigit + 1) % 6) ∧
    (∀ (p q : Prog) (s t : State) (m : Move), MReachable p s → MStep p s m q t →
      m ≠ Move.irq Irq.refresh → t.currentDigit = s.currentDigit) ∧
    (∀ (e : Event) (s t : State), e ≠ Event.refresh → step e s = some t →
      t.currentDigit = s.currentDigit) ∧
    (∀ (s : State) (n : Nat), InBounds s → s.currentDigit < 6 →
      ∃ (outs : List (Nat × Nat)) (u : State),
        refreshRun n s = some (outs, u) ∧
        outs.map Prod.fst = (List.range n).map (fun i => 2 ^ ((s.currentDigit + i) % 6)) ∧
        u.currentDigit = (s.currentDigit + n) % 6) := by
  refine ⟨rfl, fun p s h => (cursor_micro p s h).2, currentDigit_TIMER0, ?_, cursor_move,
    ?_, ?_⟩
  · intro s hb hc
    exact ⟨_, TIMER0_ok s hb hc, rfl⟩
  · intro e s t he hs
    exact currentDigit_step e s t hs he
  · intro s n hb hc
    obtain ⟨u, hu, hcd, _⟩ := refreshRun_ok n s hb hc
    refine ⟨_, u, hu, ?_, hcd⟩
    simp only [List.map_map]
    rfl

/-- C17 on concrete states: from cursor 2 the refresh leaves cursor 3, from
cursor 5 it wraps to 0, seven refreshes from cursor 0 end at cursor 1, and the
cursor is below 6 at the start of the racing iteration, a configuration of the
running program. -/
theorem C17_cursor_cycles_witness :
    (∃ t : State, TIMER0_COMP_vect { State.init with currentDigit := 2 } = some t ∧
      t.currentDigit = 3) ∧
    (∃ t : State, TIMER0_COMP_vect { State.init with currentDigit := 5 } = some t ∧
      t.currentDigit = 0) ∧
    (∃ (outs : List (Nat × Nat)) (u : State),
      refreshRun 7 State.init = some (outs, u) ∧
      outs.map Prod.fst = [1, 2, 4, 8, 16, 32, 1] ∧ u.currentDigit = 1) ∧
    racePre.currentDigit < 6 :=
  ⟨(C17_cursor_cycles.2.2.2.1 { State.init with currentDigit := 2 }
      (by decide) (by decide)).imp fun _ h => ⟨h.1, h.2.trans (by decide)⟩,
   (C17_cursor_cycles.2.2.2.1 { State.init with currentDigit := 5 }
      (by decide) (by decide)).imp fun _ h => ⟨h.1, h.2.trans (by decide)⟩,
   (C17_cursor_cycles.2.2.2.2.2.2 State.init 7 (by decide) (by decide)).imp fun _ h =>
      h.imp fun _ g => ⟨g.1, g.2.1.trans (by decide), g.2.2.trans (by decide)⟩,
   C17_cursor_cycles.2.1 _ racePre (reachable_micro _ reachable_racePre (fun _ => 255))⟩

end Stopwatch
